import Mathlib

/-!
Verification of the number-dispenser service (Go sources) via a shallow
embedding in Lean 4.  Machine integers (Go `int64` / `int`) are modelled as
`Int`; none of the operations verified here can overflow 64 bits on the
inputs considered, so plain integer arithmetic is faithful.  Impure inputs
(the pseudo-random stream, the wall clock, success or failure of the
persistence hook, goroutine scheduling) are passed explicitly as oracle
arguments.  The on-disk snapshot / persistence hook is modelled as a log of
the successfully committed positions.
-/

set_option maxRecDepth 100000

namespace NumberDispenser

/-- Error values of package `dispenser` (dispenser.go) together with the
server-level error strings that the handlers produce. -/
inductive Err where
  | invalidType
  | invalidLength
  | invalidStarting
  | invalidStep
  | invalidMachine
  | numberExhausted
  | invalidCharset
  | invalidFormat
  | retry100Failed
  | segmentOnlyIncremental
  | persistFailed
  | invalidStrategy
  deriving DecidableEq, Repr

/-- Persistence strategies (strategy.go).  Modelled as plain strings,
exactly the values of the Go constants. -/
def StrategyMemory : String := "memory"

def StrategyPreBase : String := "pre-base"

def StrategyPreCheckpoint : String := "pre-checkpoint"

def StrategyElegantClose : String := "elegant_close"

def StrategyPreClose : String := "pre_close"

/-- Configuration of a dispenser (dispenser.go, `Config`).  Go zero values
(0 for integers, the empty string for string-typed fields, `false` for
booleans) play the role of "absent". -/
structure Config where
  typ : Int := 0
  length : Int := 0
  starting : Int := 0
  step : Int := 0
  machineID : Int := 0
  datacenterID : Int := 0
  incrMode : String := ""
  charset : String := ""
  uuidFormat : String := ""
  autoDisk : String := ""
  uniqueCheck : Bool := false
  uniqueCacheSize : Int := 0
  deriving DecidableEq, Repr

/-- Helper `pow10` from dispenser.go: ten to the n-th power, 1 for n ≤ 0. -/
def pow10 (n : Int) : Int :=
  if n ≤ 0 then 1 else (10 : Int) ^ n.toNat

/-- Go `fmt.Sprintf` with format `%0*d` at width `w`: the decimal rendering
of `n`, left-padded with zeros to at least `w` characters. -/
def padZero (w : Int) (n : Int) : String :=
  let s := toString n
  if (s.length : Int) < w then
    String.mk (List.replicate (w - (s.length : Int)).toNat '0') ++ s
  else s

/-- Go `fmt.Sprintf` with format `%d`. -/
def formatD (n : Int) : String := toString n

/-- Validation of a configuration (dispenser.go, `validateConfig`). -/
def validateConfig (cfg : Config) : Option Err :=
  if cfg.typ < 1 ∨ 5 < cfg.typ then some .invalidType
  else if cfg.typ = 1 then
    if cfg.length ≤ 0 ∨ 18 < cfg.length then some .invalidLength else none
  else if cfg.typ = 2 then
    if cfg.incrMode = "fixed" ∧ (cfg.length ≤ 0 ∨ 18 < cfg.length) then
      some .invalidLength
    else if cfg.incrMode = "fixed" ∧ pow10 cfg.length ≤ cfg.starting then
      some .invalidStarting
    else if cfg.starting < 0 then some .invalidStarting
    else if cfg.step < 0 then some .invalidStep
    else none
  else if cfg.typ = 3 then
    if cfg.length ≤ 0 ∨ 64 < cfg.length then some .invalidLength
    else if cfg.charset ≠ "" ∧ cfg.charset ≠ "hex" ∧ cfg.charset ≠ "base62" then
      some .invalidCharset
    else none
  else if cfg.typ = 4 then
    if cfg.machineID < 0 ∨ 31 < cfg.machineID then some .invalidMachine
    else if cfg.datacenterID < 0 ∨ 31 < cfg.datacenterID then some .invalidMachine
    else none
  else
    if cfg.uuidFormat ≠ "" ∧ cfg.uuidFormat ≠ "standard" ∧ cfg.uuidFormat ≠ "compact" then
      some .invalidFormat
    else none

/-- State of the basic dispenser (dispenser.go, struct `Dispenser`).  The
de-duplication map `used map[string]bool` is modelled as the list of keys
mapped to true; the process-local RNG handle is kept outside the state and
passed to each call as an oracle.  Snowflake clock state is carried by
`lastTimestamp` and `seqCounter`. -/
structure Dispenser where
  config : Config
  current : Int := 0
  used : List String := []
  seqCounter : Int := 0
  lastTimestamp : Int := 0
  snowflakeEpoch : Int := 1288834974657
  totalGenerated : Int := 0
  deriving DecidableEq, Repr

/-- Constructor `NewDispenser` (dispenser.go): validate, then apply the
per-type defaulting of the configuration and initialise the state. -/
def NewDispenser (cfg : Config) : Except Err Dispenser :=
  match validateConfig cfg with
  | some e => .error e
  | none =>
    let cfg₁ :=
      if cfg.typ = 1 then
        { cfg with uniqueCheck := true }
      else if cfg.typ = 2 then
        let c := if cfg.step = 0 then { cfg with step := 1 } else cfg
        if c.incrMode = "" then
          if 0 < c.length then { c with incrMode := "fixed" }
          else { c with incrMode := "sequence" }
        else c
      else if cfg.typ = 3 then
        if cfg.charset = "" then { cfg with charset := "hex" } else cfg
      else if cfg.typ = 4 then
        if cfg.machineID = 0 then { cfg with machineID := 1 } else cfg
      else
        if cfg.uuidFormat = "" then { cfg with uuidFormat := "standard" } else cfg
    let cur := if cfg.typ = 2 then cfg.starting else 0
    .ok { config := cfg₁, current := cur }

/-- Kernel of Type 2 in fixed mode (dispenser.go, `nextIncrFixed`). -/
def nextIncrFixed (d : Dispenser) : Except Err (String × Dispenser) :=
  let maxValue := pow10 d.config.length - 1
  if maxValue < d.current then .error .numberExhausted
  else
    .ok (padZero d.config.length d.current,
      { d with current := d.current + d.config.step,
               totalGenerated := d.totalGenerated + 1 })

/-- Kernel of Type 2 in sequence mode (dispenser.go, `nextIncrSequence`). -/
def nextIncrSequence (d : Dispenser) : Except Err (String × Dispenser) :=
  .ok (formatD d.current,
    { d with current := d.current + d.config.step,
             totalGenerated := d.totalGenerated + 1 })

/-- Dispatch for Type 2 (dispenser.go, `nextNumericIncremental`). -/
def nextNumericIncremental (d : Dispenser) : Except Err (String × Dispenser) :=
  if d.config.incrMode = "fixed" then nextIncrFixed d
  else nextIncrSequence d

/-- One hundred retry draws of the Type 1 kernel (the loop body of
dispenser.go, `nextNumericRandom`).  `draw k` is the value produced by the
`k`-th call of `rng.Int63n(max-min+1)`, already shifted into
`[lo, lo + span)`; the Go RNG guarantees `0 ≤ draw k - lo < span`. -/
def randomRetry (lo : Int) (len : Int) (draw : Nat → Int) :
    Nat → Dispenser → Except Err (String × Dispenser)
  | 0, _ => .error .retry100Failed
  | fuel + 1, d =>
    let num := draw (100 - fuel - 1) + lo
    let numStr := padZero len num
    if numStr ∈ d.used then randomRetry lo len draw fuel d
    else
      .ok (numStr, { d with used := numStr :: d.used,
                            totalGenerated := d.totalGenerated + 1 })

/-- Kernel of Type 1 (dispenser.go, `nextNumericRandom`).  The Go code
compares `float64(usedCount)/float64(totalSpace) > 0.8`; on the spaces
reachable here this IEEE-double comparison coincides with the exact
rational comparison `usedCount / totalSpace > 4/5`, which is what we use
(`10 * usedCount > 8 * totalSpace`). -/
def nextNumericRandom (draw : Nat → Int) (d : Dispenser) :
    Except Err (String × Dispenser) :=
  let lo := pow10 (d.config.length - 1)
  let hi := pow10 d.config.length - 1
  let totalSpace := hi - lo + 1
  let usedCount : Int := d.used.length
  if 8 * totalSpace < 10 * usedCount then .error .numberExhausted
  else randomRetry lo d.config.length draw 100 d

/-- Composition of a snowflake identifier from its fields (dispenser.go,
`nextSnowflake`, the expression assembled with shifts and bitwise or).
With `0 ≤ dc`, `0 ≤ m` and `0 ≤ seq < 4096` the or-ed bit ranges are
disjoint, so the Go expression equals this sum. -/
def snowflakeCompose (delta dc m seq : Int) : Int :=
  delta * 2 ^ 22 + dc % 32 * 2 ^ 17 + m % 32 * 2 ^ 12 + seq

/-- Identifier string produced by `nextSnowflake` at millisecond timestamp
`ts` when the sequence counter value used for this call is `seq`. -/
def snowflakeIdAt (d : Dispenser) (ts seq : Int) : String :=
  formatD (snowflakeCompose (ts - d.snowflakeEpoch)
    d.config.datacenterID d.config.machineID seq)

/-- State of the optimized segment dispenser (segment_optimized.go, struct
`OptimizedSegmentDispenser`).  The prepared next segment
(`nextSegmentStart`, `nextSegmentEnd`, `nextSegmentReady`) is an optional
pair; `preloadPending` records that `Next` has spawned a
`preloadNextSegment` goroutine that has not run yet; `persistLog` records
(most recent first) every argument for which the persistence hook
returned success.  The Go `threshold float64` is carried as an exact
fraction `thresholdNum / thresholdDen` with positive denominator; the
comparison `remaining <= threshold` is evaluated by cross-multiplication,
which agrees with the real-valued comparison (the IEEE rounding of the
constants 0.1 and 0.2 cannot flip it on the segment sizes reachable
here). -/
structure SegState where
  config : Config
  currentNumber : Int := 0
  segmentEnd : Int := 0
  segmentSize : Int := 0
  thresholdNum : Int := 0
  thresholdDen : Int := 1
  nextSegment : Option (Int × Int) := none
  preloadPending : Bool := false
  lastPersisted : Int := 0
  persistLog : List Int := []
  totalGenerated : Int := 0
  totalWasted : Int := 0
  deriving DecidableEq, Repr

/-- Segment allocation (segment_optimized.go, `allocateSegment`): compute
the segment end, apply the fixed-mode boundary check and clamp, call the
persistence hook (`allocOk` is its outcome), and only on success install
the new segment and record `lastPersisted`. -/
def osdAllocateSegment (allocOk : Bool) (start : Int) (st : SegState) :
    Except Err SegState :=
  let e0 := start + st.segmentSize * st.config.step
  let maxValue := pow10 st.config.length - 1
  if st.config.incrMode = "fixed" ∧ maxValue ≤ start then .error .numberExhausted
  else
    let e := if st.config.incrMode = "fixed" ∧ maxValue < e0 then maxValue + 1 else e0
    if allocOk then
      .ok { st with currentNumber := start, segmentEnd := e,
                    lastPersisted := e, persistLog := e :: st.persistLog }
    else .error .persistFailed

/-- Constructor `NewOptimizedSegmentDispenser` (segment_optimized.go):
validate, default the segment size, threshold and step, then allocate the
first segment starting at `cfg.starting` (which calls the persistence
hook).  The checkpoint ticker it starts is modelled by explicit
`checkpoint` operations in traces. -/
def NewOptimizedSegmentDispenser (cfg : Config) (segmentSize : Int)
    (thNum thDen : Int) (allocOk : Bool) : Except Err SegState :=
  match validateConfig cfg with
  | some e => .error e
  | none =>
    let size := if segmentSize ≤ 0 then 100 else segmentSize
    let thOut : Int × Int :=
      if thDen ≤ 0 ∨ thNum ≤ 0 ∨ thDen ≤ thNum then (2, 10) else (thNum, thDen)
    let cfg₁ := if cfg.step = 0 then { cfg with step := 1 } else cfg
    osdAllocateSegment allocOk cfg₁.starting
      { config := cfg₁, segmentSize := size,
        thresholdNum := thOut.1, thresholdDen := thOut.2 }

/-- Tail of `OptimizedSegmentDispenser.Next` (segment_optimized.go, the
part after rollover): hand out `currentNumber`, advance it by the step,
bump the counter, and if the remaining fraction of the segment is at or
below the threshold with no segment prepared, spawn a prefetch. -/
def osdIssue (st₁ : SegState) : Int × SegState :=
  let num := st₁.currentNumber
  let st₂ := { st₁ with currentNumber := num + st₁.config.step,
                        totalGenerated := st₁.totalGenerated + 1 }
  let st₃ :=
    if (st₂.segmentEnd - st₂.currentNumber) * st₂.thresholdDen ≤
         st₂.thresholdNum * (st₂.segmentSize * st₂.config.step) ∧
       st₂.nextSegment = none then
      { st₂ with preloadPending := true }
    else st₂
  (num, st₃)

/-- Core of `OptimizedSegmentDispenser.Next` (segment_optimized.go): the
numeric value handed out together with the successor state; formatting is
split off into `osdNext`.  On any error the Go method returns before
mutating the dispenser, so the error case carries no state. -/
def osdNextCore (allocOk : Bool) (st : SegState) : Except Err (Int × SegState) :=
  if st.config.typ ≠ 2 then .error .segmentOnlyIncremental
  else
    let roll : Except Err SegState :=
      if st.segmentEnd ≤ st.currentNumber then
        match st.nextSegment with
        | some se =>
          .ok { st with currentNumber := se.1, segmentEnd := se.2,
                        nextSegment := none,
                        totalWasted :=
                          st.totalWasted + (st.segmentEnd - st.lastPersisted) }
        | none => osdAllocateSegment allocOk st.segmentEnd st
      else .ok st
    match roll with
    | .error e => .error e
    | .ok st₁ => .ok (osdIssue st₁)

/-- Full `OptimizedSegmentDispenser.Next`: the formatted identifier
(segment_optimized.go, the final `Sprintf`). -/
def osdNext (allocOk : Bool) (st : SegState) : Except Err (String × SegState) :=
  match osdNextCore allocOk st with
  | .error e => .error e
  | .ok (num, st') =>
    if st'.config.incrMode = "fixed" then .ok (padZero st'.config.length num, st')
    else .ok (formatD num, st')

/-- Body of the `preloadNextSegment` goroutine (segment_optimized.go):
re-check readiness, compute the following segment, persist its end and
only then publish it; a hook failure drops the preload silently.  Note
that it does not update `lastPersisted`. -/
def osdPreloadNextSegment (persistOk : Bool) (st : SegState) : SegState :=
  let st₀ := { st with preloadPending := false }
  match st₀.nextSegment with
  | some _ => st₀
  | none =>
    let s := st₀.segmentEnd
    let e := s + st₀.segmentSize * st₀.config.step
    if persistOk then
      { st₀ with nextSegment := some (s, e), persistLog := e :: st₀.persistLog }
    else st₀

/-- One tick of the checkpoint task (segment_optimized.go, `checkpoint`):
persist the actual consumed position when it moved; a failed save is
retried on the next tick. -/
def osdCheckpoint (persistOk : Bool) (st : SegState) : SegState :=
  if st.currentNumber ≠ st.lastPersisted then
    if persistOk then
      { st with persistLog := st.currentNumber :: st.persistLog,
                lastPersisted := st.currentNumber }
    else st
  else st

/-- Recovery entry point `OptimizedSegmentDispenser.SetCurrent`
(segment_optimized.go): overwrite only `currentNumber`. -/
def osdSetCurrent (c : Int) (st : SegState) : SegState :=
  { st with currentNumber := c }

/-- Events that can hit one optimized segment dispenser: a client `Next`
call (with the persistence-hook outcome its synchronous allocation would
see), the spawned preload goroutine getting scheduled, and a checkpoint
tick.  This is the serialization order of the per-dispenser lock. -/
inductive SegOp where
  | next (allocOk : Bool)
  | preload (persistOk : Bool)
  | checkpoint (persistOk : Bool)
  deriving DecidableEq, Repr

/-- One serialized event.  A preload event fires only when a preload
goroutine is actually pending; a failed `Next` leaves the state
unchanged. -/
def osdStep (op : SegOp) (st : SegState) : Option Int × SegState :=
  match op with
  | .next allocOk =>
    match osdNextCore allocOk st with
    | .ok (v, st') => (some v, st')
    | .error _ => (none, st)
  | .preload persistOk =>
    (none, if st.preloadPending then osdPreloadNextSegment persistOk st else st)
  | .checkpoint persistOk => (none, osdCheckpoint persistOk st)

/-- Run a sequence of events. -/
def osdRun : List SegOp → SegState → SegState
  | [], st => st
  | op :: ops, st => osdRun ops (osdStep op st).2

/-- Values issued by a run (in order). -/
def osdOuts : List SegOp → SegState → List Int
  | [], _ => []
  | op :: ops, st =>
    match osdStep op st with
    | (some v, st') => v :: osdOuts ops st'
    | (none, st') => osdOuts ops st'

/-- Condition checked after each event: if the event issued value `v`,
the log of successfully committed positions contains one ≥ `v + gap`. -/
def commitCond (gap : Int) : Option Int → List Int → Prop
  | some v, log => ∃ e ∈ log, v + gap ≤ e
  | none, _ => True

instance (gap : Int) : (o : Option Int) → (log : List Int) →
    Decidable (commitCond gap o log)
  | some _, _ => by unfold commitCond; infer_instance
  | none, _ => .isTrue trivial

/-- Property of a run: every `Next` call that issues value `v` finds, in
the persistence log as it stands when that call returns, a successfully
committed position at least `v + gap`. -/
def osdCommitAhead (gap : Int) : List SegOp → SegState → Prop
  | [], _ => True
  | op :: ops, st =>
    let r := osdStep op st
    commitCond gap r.1 r.2.persistLog ∧ osdCommitAhead gap ops r.2

instance (gap : Int) (ops : List SegOp) (st : SegState) :
    Decidable (osdCommitAhead gap ops st) := by
  induction ops generalizing st with
  | nil => exact .isTrue trivial
  | cons op ops ih =>
    simp only [osdCommitAhead]
    have := ih (osdStep op st).2
    exact instDecidableAnd

/-- State of the basic segment dispenser (segment.go, struct
`SegmentDispenser`), the `pre-base` strategy: like the optimized one but
with no checkpoint task, no `lastPersisted` tracking and no statistics
counters. -/
structure SDState where
  config : Config
  currentNumber : Int := 0
  segmentEnd : Int := 0
  segmentSize : Int := 0
  thresholdNum : Int := 0
  thresholdDen : Int := 1
  nextSegment : Option (Int × Int) := none
  preloadPending : Bool := false
  persistLog : List Int := []
  deriving DecidableEq, Repr

/-- Segment allocation of segment.go (`allocateSegment`).  The boundary
check there is keyed on the type constant with value 2 (`TypeIncrFixed`),
which is the numeric-incremental type of the configuration the factory
passes in, so it applies to every type-2 configuration regardless of
`incr_mode`. -/
def sdAllocateSegment (allocOk : Bool) (start : Int) (st : SDState) :
    Except Err SDState :=
  let e0 := start + st.segmentSize * st.config.step
  let maxValue := pow10 st.config.length - 1
  if st.config.typ = 2 ∧ maxValue ≤ start then .error .numberExhausted
  else
    let e := if st.config.typ = 2 ∧ maxValue < e0 then maxValue + 1 else e0
    if allocOk then
      .ok { st with currentNumber := start, segmentEnd := e,
                    persistLog := e :: st.persistLog }
    else .error .persistFailed

/-- Constructor `NewSegmentDispenser` (segment.go): validate, default the
segment size (100), threshold (0.2) and step (1), then allocate the first
segment at `cfg.starting`. -/
def NewSegmentDispenser (cfg : Config) (segmentSize : Int) (thNum thDen : Int)
    (allocOk : Bool) : Except Err SDState :=
  match validateConfig cfg with
  | some e => .error e
  | none =>
    let size := if segmentSize ≤ 0 then 100 else segmentSize
    let thOut : Int × Int :=
      if thDen ≤ 0 ∨ thNum ≤ 0 ∨ thDen ≤ thNum then (2, 10) else (thNum, thDen)
    let cfg₁ := if cfg.step = 0 then { cfg with step := 1 } else cfg
    sdAllocateSegment allocOk cfg₁.starting
      { config := cfg₁, segmentSize := size,
        thresholdNum := thOut.1, thresholdDen := thOut.2 }

/-- Tail of `SegmentDispenser.Next` (segment.go, the part after
rollover): hand out `currentNumber`, advance it by the step, and spawn a
prefetch when the remaining fraction of the segment is at or below the
threshold with no segment prepared. -/
def sdIssue (st₁ : SDState) : Int × SDState :=
  let num := st₁.currentNumber
  let st₂ := { st₁ with currentNumber := num + st₁.config.step }
  let st₃ :=
    if (st₂.segmentEnd - st₂.currentNumber) * st₂.thresholdDen ≤
         st₂.thresholdNum * (st₂.segmentSize * st₂.config.step) ∧
       st₂.nextSegment = none then
      { st₂ with preloadPending := true }
    else st₂
  (num, st₃)

/-- Core of `SegmentDispenser.Next` (segment.go) for the segment-driven
kinds: rollover (switch to the prepared segment or synchronously
allocate) followed by the issue tail; the numeric value is formatted by
`sdNext`. -/
def sdNextCore (allocOk : Bool) (st : SDState) : Except Err (Int × SDState) :=
  let roll : Except Err SDState :=
    if st.segmentEnd ≤ st.currentNumber then
      match st.nextSegment with
      | some se =>
        .ok { st with currentNumber := se.1, segmentEnd := se.2,
                      nextSegment := none }
      | none => sdAllocateSegment allocOk st.segmentEnd st
    else .ok st
  match roll with
  | .error e => .error e
  | .ok st₁ => .ok (sdIssue st₁)

/-- Method `SegmentDispenser.Next` (segment.go).  The type-1 branch
(`nextRandom`) is a stub in the source that always returns the padded
lower bound of the space; types 2 and 3 follow the segment discipline,
formatted padded (type constant 2, `TypeIncrFixed`) or plain (3,
`TypeIncrZero`); any other type value falls to the error default. -/
def sdNext (allocOk : Bool) (st : SDState) : Except Err (String × SDState) :=
  if st.config.typ = 1 then
    .ok (padZero st.config.length (pow10 (st.config.length - 1)), st)
  else
    match sdNextCore allocOk st with
    | .error e => .error e
    | .ok (num, st₃) =>
      if st₃.config.typ = 2 then .ok (padZero st₃.config.length num, st₃)
      else if st₃.config.typ = 3 then .ok (formatD num, st₃)
      else .error .invalidType

/-- Body of segment.go's `preloadNextSegment` goroutine. -/
def sdPreloadNextSegment (persistOk : Bool) (st : SDState) : SDState :=
  let st₀ := { st with preloadPending := false }
  match st₀.nextSegment with
  | some _ => st₀
  | none =>
    let s := st₀.segmentEnd
    let e := s + st₀.segmentSize * st₀.config.step
    if persistOk then
      { st₀ with nextSegment := some (s, e), persistLog := e :: st₀.persistLog }
    else st₀

/-- Method `SegmentDispenser.GetCurrent` (segment.go): it deliberately
reports the segment END, not the next number to hand out. -/
def sdGetCurrent (st : SDState) : Int := st.segmentEnd

/-- Method `SegmentDispenser.SetCurrent` (segment.go): overwrite only
`currentNumber`. -/
def sdSetCurrent (c : Int) (st : SDState) : SDState :=
  { st with currentNumber := c }

/-- Serialized events against one pre-base dispenser. -/
inductive SDOp where
  | next (allocOk : Bool)
  | preload (persistOk : Bool)
  deriving DecidableEq, Repr

/-- One serialized event of the pre-base dispenser. -/
def sdStep (op : SDOp) (st : SDState) : Option String × SDState :=
  match op with
  | .next allocOk =>
    match sdNext allocOk st with
    | .ok (v, st') => (some v, st')
    | .error _ => (none, st)
  | .preload persistOk =>
    (none, if st.preloadPending then sdPreloadNextSegment persistOk st else st)

/-- Run a sequence of events against the pre-base dispenser. -/
def sdRun : List SDOp → SDState → SDState
  | [], st => st
  | op :: ops, st => sdRun ops (sdStep op st).2

/-- Number of identifiers a run actually issued. -/
def sdIssueCount : List SDOp → SDState → Nat
  | [], _ => 0
  | op :: ops, st =>
    match sdStep op st with
    | (some _, st') => sdIssueCount ops st' + 1
    | (none, st') => sdIssueCount ops st'

/-- Graceful shutdown of the optimized dispenser (segment_optimized.go,
`GracefulShutdown`): stop the checkpoint task, persist the actual current
position (an error aborts before the waste accounting), then count the
positions committed ahead of it as wasted. -/
def osdGracefulShutdown (persistOk : Bool) (st : SegState) :
    Except Err SegState :=
  if persistOk then
    let st₁ := { st with persistLog := st.currentNumber :: st.persistLog }
    if st.currentNumber < st.lastPersisted then
      .ok { st₁ with totalWasted :=
              st₁.totalWasted + (st.lastPersisted - st.currentNumber) }
    else .ok st₁
  else .error .persistFailed

/-- A live dispenser as held by the server registry (server.go,
`dispensers map[string]dispenser.NumberDispenser`): one of the three
wrapper shapes the factory can produce. -/
inductive ND where
  | basic (d : Dispenser)
  | seg (sd : SDState)
  | osd (st : SegState)
  deriving DecidableEq, Repr

/-- Interface method `GetConfig`. -/
def ND.GetConfig : ND → Config
  | .basic d => d.config
  | .seg sd => sd.config
  | .osd st => st.config

/-- Interface method `GetCurrent`.  For the pre-base dispenser this is the
segment END (segment.go), for the optimized one the actual current number
(segment_optimized.go), for the basic one `current`. -/
def ND.GetCurrent : ND → Int
  | .basic d => d.current
  | .seg sd => sdGetCurrent sd
  | .osd st => st.currentNumber

/-- Interface method `SetCurrent` (used by recovery and by the
durability-only reconfiguration): each implementation overwrites its
internal current counter. -/
def ND.SetCurrent (c : Int) : ND → ND
  | .basic d => .basic { d with current := c }
  | .seg sd => .seg (sdSetCurrent c sd)
  | .osd st => .osd (osdSetCurrent c st)

/-- The internal counter that `SetCurrent` writes (for the pre-base
dispenser this differs from what `GetCurrent` reads back). -/
def ND.currentCounter : ND → Int
  | .basic d => d.current
  | .seg sd => sd.currentNumber
  | .osd st => st.currentNumber

/-- Interface method `Shutdown`: a no-op for the basic and pre-base
dispensers, `GracefulShutdown` for the optimized one.  On a hook failure
the optimized shutdown returns the error before mutating any state
modelled here. -/
def ND.Shutdown (persistOk : Bool) : ND → Except Err ND
  | .basic d => .ok (.basic d)
  | .seg sd => .ok (.seg sd)
  | .osd st => (osdGracefulShutdown persistOk st).map .osd

/-- Interface method `Next` restricted to the two numeric kinds the claims
below exercise.  Kinds 3-5 of the basic dispenser draw from the process
crypto RNG and the wall clock and are not needed here; their branch is
left unmodelled (the claims never call it). -/
def ND.NextStr (draw : Nat → Int) (allocOk : Bool) :
    ND → Except Err (String × ND)
  | .basic d =>
    if d.config.typ = 1 then (nextNumericRandom draw d).map fun p => (p.1, .basic p.2)
    else if d.config.typ = 2 then
      (nextNumericIncremental d).map fun p => (p.1, .basic p.2)
    else .error .invalidType
  | .seg sd => (sdNext allocOk sd).map fun p => (p.1, .seg p.2)
  | .osd st => (osdNext allocOk st).map fun p => (p.1, .osd p.2)

/-- Factory dispatch (factory.go, `CreateDispenser`): default the strategy
to `elegant_close`, then wrap the kernel per strategy; segment sizes are
1000 with threshold 0.1, matching the factory constants. -/
def CreateDispenser (cfg : Config) (allocOk : Bool) : Except Err ND :=
  let cfg₁ := if cfg.autoDisk = "" then { cfg with autoDisk := StrategyElegantClose }
              else cfg
  if cfg₁.autoDisk = StrategyMemory then (NewDispenser cfg₁).map .basic
  else if cfg₁.autoDisk = StrategyPreBase then
    (NewSegmentDispenser cfg₁ 1000 1 10 allocOk).map .seg
  else if cfg₁.autoDisk = StrategyPreCheckpoint then
    (NewOptimizedSegmentDispenser cfg₁ 1000 1 10 allocOk).map .osd
  else if cfg₁.autoDisk = StrategyElegantClose then (NewDispenser cfg₁).map .basic
  else if cfg₁.autoDisk = StrategyPreClose then
    (NewOptimizedSegmentDispenser cfg₁ 1000 1 10 allocOk).map .osd
  else .error .invalidStrategy

/-- Restoration of one snapshot entry at startup (server.go,
`loadDispensers`): re-create the dispenser from the saved configuration,
then `SetCurrent` to the saved position. -/
def loadDispenser (cfg : Config) (savedCurrent : Int) (allocOk : Bool) :
    Except Err ND :=
  (CreateDispenser cfg allocOk).map (ND.SetCurrent savedCurrent)

/-- Replies of the command handlers (handlers.go), with the data carried
by each distinct `protocol.Value` error message kept structured. -/
inductive Reply where
  | bulk (s : String)
  | integer (n : Int)
  | err (e : Err)
  | errCannotChangeType (oldT newT : Int)
  | errCoreImmutable (fields : List String)
  | errShutdown (e : Err)
  | errSaveFailed
  deriving DecidableEq, Repr

/-- Handler `handleGet` (handlers.go) applied to the dispenser the name
resolved to.  After a successful `Next`, only the `elegant_close`
strategy on the numeric-incremental type triggers an immediate
`storage.Save`; its error is ignored (`记录错误但继续返回`), so the reply
carries the number regardless of `saveOk`.  The third component lists the
positions passed to `storage.Save` during the call. -/
def handleGet (draw : Nat → Int) (allocOk : Bool) (_saveOk : Bool) (nd : ND) :
    Reply × ND × List Int :=
  match nd.NextStr draw allocOk with
  | .error e => (.err e, nd, [])
  | .ok (number, nd') =>
    let cfg := nd'.GetConfig
    if cfg.autoDisk = StrategyElegantClose ∧ cfg.typ = 2 then
      (.bulk number, nd', [nd'.GetCurrent])
    else (.bulk number, nd', [])

/-- The list of core-configuration fields the reconfiguration check in
`handleHSet` (handlers.go) reports as changed, in source order; a
zero-valued integer or empty string in the incoming configuration counts
as absent. -/
def changedFields (cfg ecfg : Config) : List String :=
  (if cfg.length ≠ 0 ∧ cfg.length ≠ ecfg.length then ["length"] else []) ++
  (if cfg.starting ≠ 0 ∧ cfg.starting ≠ ecfg.starting then ["starting"] else []) ++
  (if cfg.step ≠ 0 ∧ cfg.step ≠ ecfg.step then ["step"] else []) ++
  (if cfg.incrMode ≠ "" ∧ cfg.incrMode ≠ ecfg.incrMode then ["incr_mode"] else []) ++
  (if cfg.charset ≠ "" ∧ cfg.charset ≠ ecfg.charset then ["charset"] else []) ++
  (if cfg.uuidFormat ≠ "" ∧ cfg.uuidFormat ≠ ecfg.uuidFormat then ["uuid_format"] else []) ++
  (if cfg.machineID ≠ 0 ∧ cfg.machineID ≠ ecfg.machineID then ["machine_id"] else []) ++
  (if cfg.datacenterID ≠ 0 ∧ cfg.datacenterID ≠ ecfg.datacenterID then ["datacenter_id"] else [])

/-- Handler `handleHSet` (handlers.go, lines 143-237) in the case where
the registry already holds a dispenser `nd` for the name.  `cfg` is the
parsed configuration with `auto_disk` already defaulted to
`elegant_close` (lines 133-136); `nf` is the number of field pairs in the
command.  Mirrors the source: a type change is rejected first; then any
changed core field; then a durability-only change rebuilds the dispenser
(inheriting the current counter for the incremental type), shuts the old
one down (an error aborts before the registry swap) and saves under the
new strategy (a save error is returned after the swap already happened);
otherwise the call is a no-op success. -/
def handleHSetOnExisting (cfg : Config) (nf : Int)
    (allocOk shutdownOk saveOk : Bool) (nd : ND) : Reply × ND :=
  let ecfg := nd.GetConfig
  if cfg.typ ≠ ecfg.typ then (.errCannotChangeType ecfg.typ cfg.typ, nd)
  else
    let changed := changedFields cfg ecfg
    if changed ≠ [] then (.errCoreImmutable changed, nd)
    else if cfg.autoDisk ≠ ecfg.autoDisk then
      match CreateDispenser { ecfg with autoDisk := cfg.autoDisk } allocOk with
      | .error e => (.err e, nd)
      | .ok d₀ =>
        let d := if ecfg.typ = 2 then d₀.SetCurrent nd.GetCurrent else d₀
        match nd.Shutdown shutdownOk with
        | .error e => (.errShutdown e, nd)
        | .ok _ => if saveOk then (.integer nf, d) else (.errSaveFailed, d)
    else (.integer nf, nd)

/-!
Claims.  Each claim of the specification gets one theorem below (with a
witness when the theorem carries hypotheses, and a counterexample when
the claim had to be corrected).
-/

/-- Configuration of the restart scenario used for claim C1: a
numeric-monotonic sequence dispenser, starting 0, step 1, durability
`pre-checkpoint` (segment-based). -/
def restartCfg : Config :=
  { typ := 2, incrMode := "sequence", starting := 0, step := 1,
    autoDisk := "pre-checkpoint" }

/-- Claim C1.  The claim (spec invariant I1: after a restart from a
snapshot whose saved position is `p`, no `next()` ever returns a value
below `p`, under every durability strategy including the segment-based
ones) is violated by the code: `loadDispensers` re-creates the dispenser
(which allocates a fresh first segment `[starting, starting+1000)`) and
then only overwrites `currentNumber` with the saved position, leaving the
stale `segmentEnd`; the first `next()` rolls over and allocates from that
stale `segmentEnd`, re-issuing old values.  Concretely: saved position
5000, yet the first `get` after restart returns "1000" < 5000, with the
persistence hook succeeding throughout. -/
theorem C1_restart_reissues_below_saved_position :
    ((loadDispenser restartCfg 5000 true).bind
      fun nd => (nd.NextStr (fun _ => 0) true).map Prod.fst) = .ok "1000"
    ∧ (1000 : Int) < 5000 := by
  constructor
  · rfl
  · decide

/-- Configuration for claim C3's counterexample: fixed-width length 3,
starting 0, step 1, durability `pre-checkpoint` (factory segment size
1000, threshold 0.1). -/
def cap3Cfg : Config :=
  { typ := 2, incrMode := "fixed", length := 3, starting := 0, step := 1,
    autoDisk := "pre-checkpoint" }

/-- The dispenser the factory builds for `cap3Cfg`. -/
def cap3Start : SegState :=
  match CreateDispenser cap3Cfg true with
  | .ok (.osd st) => st
  | _ => { config := {} }

/-- One hundred client calls. -/
def hundredNexts : List SegOp := List.replicate 100 (.next true)

/-- Schedule for claim C3's counterexample: 900 issues exhaust the segment
down to the refill threshold, the spawned prefetch goroutine runs (it
persists and publishes the next segment without any cap check), and 100
more issues consume the rest of the first segment. -/
def cap3Ops : List SegOp :=
  hundredNexts ++ hundredNexts ++ hundredNexts ++ hundredNexts ++
  hundredNexts ++ hundredNexts ++ hundredNexts ++ hundredNexts ++
  hundredNexts ++ [.preload true] ++ hundredNexts

/-- Runs compose over concatenated schedules. -/
lemma osdRun_append (a b : List SegOp) :
    ∀ st : SegState, osdRun (a ++ b) st = osdRun b (osdRun a st) := by
  induction a with
  | nil => intro st ; rfl
  | cons op a ih =>
    intro st
    exact ih ((osdStep op st).2)

/-- The C3 dispenser after consuming `cur` values of the first segment,
with the prefetch either not yet spawned or pending. -/
def cap3Mid (cur : Int) (pending : Bool) : SegState :=
  { config := cap3Cfg, currentNumber := cur, segmentEnd := 1000,
    segmentSize := 1000, thresholdNum := 1, thresholdDen := 10,
    preloadPending := pending, lastPersisted := 1000, persistLog := [1000],
    totalGenerated := cur }

/-- The C3 dispenser once the prefetched segment `[1000, 2000)` has been
published (no cap check was applied). -/
def cap3Ready (cur : Int) : SegState :=
  { config := cap3Cfg, currentNumber := cur, segmentEnd := 1000,
    segmentSize := 1000, thresholdNum := 1, thresholdDen := 10,
    nextSegment := some (1000, 2000), lastPersisted := 1000,
    persistLog := [2000, 1000], totalGenerated := cur }

/-- The factory product, spelled out. -/
lemma cap3Seg0 : cap3Start = cap3Mid 0 false := by rfl

/-- First hundred issues. -/
lemma cap3Seg1 : osdRun hundredNexts (cap3Mid 0 false) = cap3Mid 100 false := by rfl

/-- Issues 100-199. -/
lemma cap3Seg2 : osdRun hundredNexts (cap3Mid 100 false) = cap3Mid 200 false := by rfl

/-- Issues 200-299. -/
lemma cap3Seg3 : osdRun hundredNexts (cap3Mid 200 false) = cap3Mid 300 false := by rfl

/-- Issues 300-399. -/
lemma cap3Seg4 : osdRun hundredNexts (cap3Mid 300 false) = cap3Mid 400 false := by rfl

/-- Issues 400-499. -/
lemma cap3Seg5 : osdRun hundredNexts (cap3Mid 400 false) = cap3Mid 500 false := by rfl

/-- Issues 500-599. -/
lemma cap3Seg6 : osdRun hundredNexts (cap3Mid 500 false) = cap3Mid 600 false := by rfl

/-- Issues 600-699. -/
lemma cap3Seg7 : osdRun hundredNexts (cap3Mid 600 false) = cap3Mid 700 false := by rfl

/-- Issues 700-799. -/
lemma cap3Seg8 : osdRun hundredNexts (cap3Mid 700 false) = cap3Mid 800 false := by rfl

/-- Issues 800-899; the one issuing 899 leaves at most ten percent of the
segment and spawns the prefetch goroutine. -/
lemma cap3Seg9 : osdRun hundredNexts (cap3Mid 800 false) = cap3Mid 900 true := by rfl

/-- The prefetch goroutine runs: it persists 2000 and publishes the
segment `[1000, 2000)` without any fixed-width boundary check. -/
lemma cap3Pre : osdRun [.preload true] (cap3Mid 900 true) = cap3Ready 900 := by rfl

/-- Issues 900-999 drain the first segment completely. -/
lemma cap3Last : osdRun hundredNexts (cap3Ready 900) = cap3Ready 1000 := by rfl

/-- End state of the counterexample schedule. -/
lemma cap3Run : osdRun cap3Ops cap3Start = cap3Ready 1000 := by
  unfold cap3Ops
  rw [osdRun_append, osdRun_append, osdRun_append, osdRun_append,
    osdRun_append, osdRun_append, osdRun_append, osdRun_append,
    osdRun_append, osdRun_append, cap3Seg0, cap3Seg1, cap3Seg2, cap3Seg3,
    cap3Seg4, cap3Seg5, cap3Seg6, cap3Seg7, cap3Seg8, cap3Seg9, cap3Pre,
    cap3Last]

/-- Claim C3, counterexample.  The claim says that under every durability
strategy a `next()` call made when `current > 10^L - 1` fails with
`exhausted`.  Under `pre-checkpoint` (segment allocator), after the 1000
values 0..999 of a fixed-width length-3 dispenser are issued the live
`current` is 1000, beyond the cap 999 — and the next call still succeeds,
returning "1000" (four digits), because the prefetched segment
`[1000, 2000)` was published without any boundary check. -/
theorem C3_counterexample :
    CreateDispenser cap3Cfg true = .ok (.osd cap3Start)
    ∧ pow10 3 - 1 < (osdRun cap3Ops cap3Start).currentNumber
    ∧ (osdNext true (osdRun cap3Ops cap3Start)).map Prod.fst = .ok "1000" := by
  refine ⟨rfl, ?_, ?_⟩
  · rw [cap3Run]
    decide
  · rw [cap3Run]
    rfl

/-- Rendering a nonnegative integer is the decimal numeral of its
absolute value. -/
lemma toString_int_nonneg (n : Int) (h : 0 ≤ n) :
    toString n = Nat.repr n.toNat := by
  rw [show n = (n.toNat : Int) from (Int.toNat_of_nonneg h).symm]
  rfl

/-- A value below the fixed-width cap pads to exactly the configured
number of digits. -/
lemma padZero_length (w n : Int) (hw : 0 < w) (hn : 0 ≤ n)
    (h : n < pow10 w) : ((padZero w n).length : Int) = w := by
  have hrepr : ((toString n).length : Int) ≤ w := by
    have hpow : pow10 w = ((10 ^ w.toNat : Nat) : Int) := by
      unfold pow10
      rw [if_neg (by omega)]
      push_cast
      rfl
    have h10 : n.toNat < 10 ^ w.toNat := by omega
    have := Nat.repr_length n.toNat w.toNat (by omega) h10
    rw [toString_int_nonneg n hn]
    omega
  unfold padZero
  by_cases hlt : ((toString n).length : Int) < w
  · rw [if_pos hlt]
    have : (String.mk (List.replicate (w - ((toString n).length : Int)).toNat '0')
        ++ toString n).length
        = (w - ((toString n).length : Int)).toNat + (toString n).length := by
      rw [String.length_append]
      show (List.replicate (w - ((toString n).length : Int)).toNat '0').length
          + (toString n).length
        = (w - ((toString n).length : Int)).toNat + (toString n).length
      rw [List.length_replicate]
    rw [this]
    omega
  · rw [if_neg hlt]
    omega

/-- Claim C3, amended: the fixed-width cap behaviour holds for the basic
kernel (the `memory` and `elegant_close` strategies): a `next()` with
`current ≤ 10^L - 1` succeeds and returns `current` zero-padded to
exactly `L` digits while advancing `current` by `step`, and a `next()`
with `current > 10^L - 1` fails with `exhausted` — so starting near the
cap, the last successful call returns the padded `10^L - 1` and the
following call fails.  (The segment-based strategies violate the claim:
see the counterexample, where the prefetch path issues past the cap; the
synchronous allocator also refuses a segment starting exactly at the
cap.) -/
theorem C3_fixed_width_cap (d : Dispenser) (hL : 0 < d.config.length)
    (hcur : 0 ≤ d.current) :
    (d.current ≤ pow10 d.config.length - 1 →
      nextIncrFixed d = .ok (padZero d.config.length d.current,
        { d with current := d.current + d.config.step,
                 totalGenerated := d.totalGenerated + 1 })
      ∧ ((padZero d.config.length d.current).length : Int) = d.config.length)
    ∧ (pow10 d.config.length - 1 < d.current →
      nextIncrFixed d = .error .numberExhausted) := by
  constructor
  · intro hle
    constructor
    · unfold nextIncrFixed
      rw [if_neg (by omega)]
    · exact padZero_length _ _ hL hcur (by omega)
  · intro hgt
    unfold nextIncrFixed
    rw [if_pos (by omega)]

/-- Witness for claim C3: a length-3 fixed-width dispenser sitting at the
cap 999 issues exactly "999" (three digits) and the successor state sits
past the cap, where the next call is refused with `exhausted`. -/
theorem C3_fixed_width_cap_witness :
    ∃ d : Dispenser, 0 < d.config.length ∧ 0 ≤ d.current ∧
      nextIncrFixed d = .ok ("999",
        { d with current := 1000, totalGenerated := d.totalGenerated + 1 })
      ∧ nextIncrFixed
          { d with current := 1000, totalGenerated := d.totalGenerated + 1 }
          = .error .numberExhausted := by
  refine ⟨{ config := { typ := 2, incrMode := "fixed", length := 3, step := 1 },
            current := 999 }, by decide, by decide, ?_, ?_⟩
  · have h := (C3_fixed_width_cap
      { config := { typ := 2, incrMode := "fixed", length := 3, step := 1 },
        current := 999 } (by decide) (by decide)).1 (by decide)
    exact h.1
  · exact (C3_fixed_width_cap
      { config := { typ := 2, incrMode := "fixed", length := 3, step := 1 },
        current := 1000, totalGenerated := 1 } (by decide) (by decide)).2
      (by decide)

/-- Safety invariant of the optimized segment dispenser: the live segment
end and the end of any published prepared segment are covered by a
successfully committed position, prepared segments are nonempty, and the
stored step and segment size are positive. -/
def SegInv (st : SegState) : Prop :=
  1 ≤ st.config.step ∧ 1 ≤ st.segmentSize ∧
  (∃ e ∈ st.persistLog, st.segmentEnd ≤ e) ∧
  (∀ se : Int × Int, st.nextSegment = some se →
    se.1 < se.2 ∧ ∃ x ∈ st.persistLog, se.2 ≤ x)

/-- Strengthened invariant in sequence mode (no fixed-width clamping):
segment boundaries stay aligned to the step. -/
def SegInvSeq (st : SegState) : Prop :=
  SegInv st ∧ st.config.incrMode ≠ "fixed" ∧
  st.config.step ∣ st.segmentEnd - st.currentNumber ∧
  (∀ se : Int × Int, st.nextSegment = some se →
    st.config.step ∣ se.2 - se.1)

/-- What a successful synchronous allocation does to the state. -/
lemma osdAllocateSegment_ok {ok : Bool} {start : Int} {st st' : SegState}
    (hstep : 1 ≤ st.config.step) (hsize : 1 ≤ st.segmentSize)
    (h : osdAllocateSegment ok start st = .ok st') :
    st'.config = st.config ∧ st'.segmentSize = st.segmentSize ∧
    st'.thresholdNum = st.thresholdNum ∧ st'.thresholdDen = st.thresholdDen ∧
    st'.currentNumber = start ∧ st'.nextSegment = st.nextSegment ∧
    st'.preloadPending = st.preloadPending ∧
    st'.persistLog = st'.segmentEnd :: st.persistLog ∧
    start < st'.segmentEnd ∧
    (st.config.incrMode ≠ "fixed" →
      st'.segmentEnd = start + st.segmentSize * st.config.step) := by
  have hunit : (1 : Int) ≤ st.segmentSize * st.config.step := by nlinarith
  unfold osdAllocateSegment at h
  by_cases h1 : st.config.incrMode = "fixed" ∧ pow10 st.config.length - 1 ≤ start
  · rw [if_pos h1] at h
    exact absurd h (by simp)
  · rw [if_neg h1] at h
    by_cases hok : ok
    · rw [if_pos hok] at h
      injection h with h
      subst h
      refine ⟨rfl, rfl, rfl, rfl, rfl, rfl, rfl, rfl, ?_, ?_⟩
      · by_cases h2 : st.config.incrMode = "fixed" ∧
            pow10 st.config.length - 1 < start + st.segmentSize * st.config.step
        · simp only [h2, if_pos]
          have : ¬ pow10 st.config.length - 1 ≤ start := fun hc => h1 ⟨h2.1, hc⟩
          omega
        · simp only [if_neg h2]
          omega
      · intro hmode
        have h2 : ¬ (st.config.incrMode = "fixed" ∧
            pow10 st.config.length - 1 < start + st.segmentSize * st.config.step) :=
          fun hc => hmode hc.1
        simp only [if_neg h2]
    · rw [if_neg hok] at h
      exact absurd h (by simp)

/-- A failed synchronous allocation is an error. -/
lemma osdAllocateSegment_cases (ok : Bool) (start : Int) (st : SegState) :
    (∃ st', osdAllocateSegment ok start st = .ok st') ∨
    (∃ e, osdAllocateSegment ok start st = .error e) := by
  unfold osdAllocateSegment
  by_cases h1 : st.config.incrMode = "fixed" ∧ pow10 st.config.length - 1 ≤ start
  · rw [if_pos h1]
    exact .inr ⟨_, rfl⟩
  · rw [if_neg h1]
    by_cases hok : ok
    · rw [if_pos hok]
      exact .inl ⟨_, rfl⟩
    · rw [if_neg hok]
      exact .inr ⟨_, rfl⟩

/-- Field bookkeeping of the issue tail: everything except
`currentNumber`, `totalGenerated` and `preloadPending` is preserved, and
the issued value is the pre-state `currentNumber`. -/
lemma osdIssue_fields (st₁ : SegState) :
    (osdIssue st₁).1 = st₁.currentNumber ∧
    (osdIssue st₁).2.config = st₁.config ∧
    (osdIssue st₁).2.segmentSize = st₁.segmentSize ∧
    (osdIssue st₁).2.segmentEnd = st₁.segmentEnd ∧
    (osdIssue st₁).2.nextSegment = st₁.nextSegment ∧
    (osdIssue st₁).2.persistLog = st₁.persistLog ∧
    (osdIssue st₁).2.currentNumber = st₁.currentNumber + st₁.config.step := by
  unfold osdIssue
  dsimp only
  split <;> exact ⟨rfl, rfl, rfl, rfl, rfl, rfl, rfl⟩

/-- What a successful `Next` does: the three ways a value can be issued
(inside the live segment, by switching to the prepared segment, or by a
synchronous allocation), with the state facts each way guarantees. -/
lemma osdNextCore_ok {ok : Bool} {st : SegState} {v : Int} {st' : SegState}
    (hstep : 1 ≤ st.config.step) (hsize : 1 ≤ st.segmentSize)
    (h : osdNextCore ok st = .ok (v, st')) :
    st'.config = st.config ∧ st'.segmentSize = st.segmentSize ∧
    st'.currentNumber = v + st.config.step ∧
    ((st'.segmentEnd = st.segmentEnd ∧ st'.persistLog = st.persistLog ∧
        st'.nextSegment = st.nextSegment ∧ v = st.currentNumber ∧
        st.currentNumber < st.segmentEnd) ∨
      (∃ se : Int × Int, st.nextSegment = some se ∧ v = se.1 ∧
        st'.segmentEnd = se.2 ∧ st'.persistLog = st.persistLog ∧
        st'.nextSegment = none) ∨
      (st.nextSegment = none ∧ v = st.segmentEnd ∧ v < st'.segmentEnd ∧
        st'.persistLog = st'.segmentEnd :: st.persistLog ∧
        st'.nextSegment = none ∧
        (st.config.incrMode ≠ "fixed" →
          st'.segmentEnd = v + st.segmentSize * st.config.step))) := by
  unfold osdNextCore at h
  by_cases htyp : st.config.typ ≠ 2
  · rw [if_pos htyp] at h
    exact absurd h (by simp)
  · rw [if_neg htyp] at h
    by_cases hroll : st.segmentEnd ≤ st.currentNumber
    · rw [if_pos hroll] at h
      simp only at h
      cases hns : st.nextSegment with
      | some se =>
        rw [hns] at h
        simp only [Except.ok.injEq] at h
        set stSwitch : SegState :=
          { st with currentNumber := se.1, segmentEnd := se.2,
                    nextSegment := none,
                    totalWasted :=
                      st.totalWasted + (st.segmentEnd - st.lastPersisted) }
          with hdef
        obtain ⟨h1, h2, h3, h4, h5, h6, h7⟩ := osdIssue_fields stSwitch
        have hfst := congrArg Prod.fst h
        rw [h1] at hfst
        have hv : v = se.1 := hfst.symm
        have hst : st' = (osdIssue stSwitch).2 := (congrArg Prod.snd h).symm
        refine ⟨by rw [hst, h2], by rw [hst, h3], by rw [hst, h7, hv], ?_⟩
        exact .inr (.inl ⟨se, rfl, hv, by rw [hst, h4], by rw [hst, h6],
          by rw [hst, h5]⟩)
      | none =>
        rw [hns] at h
        cases halloc : osdAllocateSegment ok st.segmentEnd st with
        | error e =>
          rw [halloc] at h
          exact absurd h (by simp)
        | ok st₁ =>
          rw [halloc] at h
          simp only [Except.ok.injEq] at h
          obtain ⟨h1, h2, h3, h4, h5, h6, h7⟩ := osdIssue_fields st₁
          obtain ⟨hc, hs, _, _, hcur, hnext, _, hlog, hlt, hseq⟩ :=
            osdAllocateSegment_ok hstep hsize halloc
          have hfst := congrArg Prod.fst h
          rw [h1, hcur] at hfst
          have hv : v = st.segmentEnd := hfst.symm
          have hst : st' = (osdIssue st₁).2 := (congrArg Prod.snd h).symm
          refine ⟨by rw [hst, h2, hc], by rw [hst, h3, hs],
            by rw [hst, h7, hcur, hc, hv], ?_⟩
          refine .inr (.inr ⟨rfl, hv, ?_, ?_, ?_, ?_⟩)
          · rw [hst, h4]
            omega
          · rw [hst, h6, h4]
            exact hlog
          · rw [hst, h5, hnext, hns]
          · intro hmode
            rw [hst, h4, hseq hmode, hv]
    · rw [if_neg hroll] at h
      simp only [Except.ok.injEq] at h
      obtain ⟨h1, h2, h3, h4, h5, h6, h7⟩ := osdIssue_fields st
      have hfst := congrArg Prod.fst h
      rw [h1] at hfst
      have hv : v = st.currentNumber := hfst.symm
      have hst : st' = (osdIssue st).2 := (congrArg Prod.snd h).symm
      refine ⟨by rw [hst, h2], by rw [hst, h3], by rw [hst, h7, hv], ?_⟩
      exact .inl ⟨by rw [hst, h4], by rw [hst, h6], by rw [hst, h5], hv,
        by omega⟩

/-- Field bookkeeping of a preload-goroutine run. -/
lemma osdPreload_fields (ok : Bool) (st : SegState) :
    (osdPreloadNextSegment ok st).config = st.config ∧
    (osdPreloadNextSegment ok st).segmentSize = st.segmentSize ∧
    (osdPreloadNextSegment ok st).currentNumber = st.currentNumber ∧
    (osdPreloadNextSegment ok st).segmentEnd = st.segmentEnd ∧
    ((osdPreloadNextSegment ok st).nextSegment = st.nextSegment ∧
        (osdPreloadNextSegment ok st).persistLog = st.persistLog ∨
      (osdPreloadNextSegment ok st).nextSegment =
          some (st.segmentEnd, st.segmentEnd + st.segmentSize * st.config.step) ∧
        (osdPreloadNextSegment ok st).persistLog =
          (st.segmentEnd + st.segmentSize * st.config.step) :: st.persistLog) := by
  unfold osdPreloadNextSegment
  cases hns : st.nextSegment with
  | some se =>
    dsimp only
    exact ⟨rfl, rfl, rfl, rfl, .inl ⟨rfl, rfl⟩⟩
  | none =>
    dsimp only
    cases ok with
    | true =>
      exact ⟨by simp, by simp, by simp, by simp, .inr ⟨by simp, by simp⟩⟩
    | false =>
      exact ⟨by simp, by simp, by simp, by simp, .inl ⟨by simp, by simp⟩⟩

/-- Field bookkeeping of a checkpoint tick. -/
lemma osdCheckpoint_fields (ok : Bool) (st : SegState) :
    (osdCheckpoint ok st).config = st.config ∧
    (osdCheckpoint ok st).segmentSize = st.segmentSize ∧
    (osdCheckpoint ok st).currentNumber = st.currentNumber ∧
    (osdCheckpoint ok st).segmentEnd = st.segmentEnd ∧
    (osdCheckpoint ok st).nextSegment = st.nextSegment ∧
    ((osdCheckpoint ok st).persistLog = st.persistLog ∨
      (osdCheckpoint ok st).persistLog = st.currentNumber :: st.persistLog) := by
  unfold osdCheckpoint
  by_cases h1 : st.currentNumber ≠ st.lastPersisted
  · rw [if_pos h1]
    by_cases hok : ok
    · rw [if_pos hok]
      exact ⟨rfl, rfl, rfl, rfl, rfl, .inr rfl⟩
    · rw [if_neg hok]
      exact ⟨rfl, rfl, rfl, rfl, rfl, .inl rfl⟩
  · rw [if_neg h1]
    exact ⟨rfl, rfl, rfl, rfl, rfl, .inl rfl⟩

/-- One serialized event preserves the safety invariant, does not change
the configuration, and any value it issues is covered by a committed
position strictly above it. -/
lemma SegInv_osdStep (op : SegOp) (st : SegState) (h : SegInv st) :
    SegInv (osdStep op st).2 ∧ (osdStep op st).2.config = st.config ∧
    commitCond 1 (osdStep op st).1 (osdStep op st).2.persistLog := by
  obtain ⟨hstep, hsize, ⟨eCov, heCovMem, heCov⟩, hnsInv⟩ := h
  cases op with
  | next allocOk =>
    cases hres : osdNextCore allocOk st with
    | error e =>
      dsimp only [osdStep]
      rw [hres]
      exact ⟨⟨hstep, hsize, ⟨eCov, heCovMem, heCov⟩, hnsInv⟩, rfl, trivial⟩
    | ok p =>
      obtain ⟨v, st'⟩ := p
      dsimp only [osdStep]
      rw [hres]
      obtain ⟨hc, hs, _, hcase⟩ := osdNextCore_ok hstep hsize hres
      rcases hcase with ⟨he, hl, hn, hv, hlt⟩ | ⟨se, hns, hv, he, hl, hn⟩ |
        ⟨hns, hv, hlt, hl, hn, _⟩
      · refine ⟨⟨by rw [hc] ; exact hstep, by rw [hs] ; exact hsize,
          ⟨eCov, by rw [hl] ; exact heCovMem, by rw [he] ; exact heCov⟩, ?_⟩,
          hc, ?_⟩
        · intro se hse
          rw [hn] at hse
          obtain ⟨hlt2, x, hx, hxe⟩ := hnsInv se hse
          exact ⟨hlt2, x, by rw [hl] ; exact hx, hxe⟩
        · exact ⟨eCov, by rw [hl] ; exact heCovMem, by omega⟩
      · obtain ⟨hlt2, x, hx, hxe⟩ := hnsInv se hns
        refine ⟨⟨by rw [hc] ; exact hstep, by rw [hs] ; exact hsize,
          ⟨x, by rw [hl] ; exact hx, by rw [he] ; exact hxe⟩, ?_⟩, hc, ?_⟩
        · intro se2 hse2
          rw [hn] at hse2
          exact absurd hse2 (by simp)
        · exact ⟨x, by rw [hl] ; exact hx, by omega⟩
      · refine ⟨⟨by rw [hc] ; exact hstep, by rw [hs] ; exact hsize,
          ⟨st'.segmentEnd, by rw [hl] ; exact List.mem_cons_self _ _,
            le_refl _⟩, ?_⟩, hc, ?_⟩
        · intro se2 hse2
          rw [hn] at hse2
          exact absurd hse2 (by simp)
        · exact ⟨st'.segmentEnd, by rw [hl] ; exact List.mem_cons_self _ _,
            by omega⟩
  | preload persistOk =>
    dsimp only [osdStep]
    by_cases hp : st.preloadPending
    · rw [if_pos hp]
      obtain ⟨hc, hs, _, he, hcase⟩ := osdPreload_fields persistOk st
      rcases hcase with ⟨hn, hl⟩ | ⟨hn, hl⟩
      · refine ⟨⟨by rw [hc] ; exact hstep, by rw [hs] ; exact hsize,
          ⟨eCov, by rw [hl] ; exact heCovMem, by rw [he] ; exact heCov⟩, ?_⟩,
          hc, trivial⟩
        intro se hse
        rw [hn] at hse
        obtain ⟨hlt2, x, hx, hxe⟩ := hnsInv se hse
        exact ⟨hlt2, x, by rw [hl] ; exact hx, hxe⟩
      · have hunit : (1 : Int) ≤ st.segmentSize * st.config.step := by nlinarith
        refine ⟨⟨by rw [hc] ; exact hstep, by rw [hs] ; exact hsize,
          ⟨eCov, by rw [hl] ; exact List.mem_cons_of_mem _ heCovMem,
            by rw [he] ; exact heCov⟩, ?_⟩, hc, trivial⟩
        intro se hse
        rw [hn] at hse
        injection hse with hse
        subst hse
        refine ⟨by dsimp only ; omega,
          st.segmentEnd + st.segmentSize * st.config.step,
          by rw [hl] ; exact List.mem_cons_self _ _, le_refl _⟩
    · rw [if_neg hp]
      exact ⟨⟨hstep, hsize, ⟨eCov, heCovMem, heCov⟩, hnsInv⟩, rfl, trivial⟩
  | checkpoint persistOk =>
    dsimp only [osdStep]
    obtain ⟨hc, hs, _, he, hn, hcase⟩ := osdCheckpoint_fields persistOk st
    have hsub : ∀ x, x ∈ st.persistLog → x ∈ (osdCheckpoint persistOk st).persistLog := by
      intro x hx
      rcases hcase with hl | hl
      · rw [hl] ; exact hx
      · rw [hl] ; exact List.mem_cons_of_mem _ hx
    refine ⟨⟨by rw [hc] ; exact hstep, by rw [hs] ; exact hsize,
      ⟨eCov, hsub _ heCovMem, by rw [he] ; exact heCov⟩, ?_⟩, hc, trivial⟩
    intro se hse
    rw [hn] at hse
    obtain ⟨hlt2, x, hx, hxe⟩ := hnsInv se hse
    exact ⟨hlt2, x, hsub _ hx, hxe⟩

/-- One serialized event preserves the sequence-mode invariant, and any
value it issues is covered by a committed position at least one full step
above it. -/
lemma SegInvSeq_osdStep (op : SegOp) (st : SegState) (h : SegInvSeq st) :
    SegInvSeq (osdStep op st).2 ∧ (osdStep op st).2.config = st.config ∧
    commitCond st.config.step (osdStep op st).1
      (osdStep op st).2.persistLog := by
  obtain ⟨hinv, hmode, hdvd, hnsDvd⟩ := h
  obtain ⟨hinv', hc', _⟩ := SegInv_osdStep op st hinv
  obtain ⟨hstep, hsize, ⟨eCov, heCovMem, heCov⟩, hnsInv⟩ := hinv
  cases op with
  | next allocOk =>
    cases hres : osdNextCore allocOk st with
    | error e =>
      dsimp only [osdStep] at hinv' hc' ⊢
      rw [hres] at hinv' hc' ⊢
      exact ⟨⟨hinv', hmode, hdvd, hnsDvd⟩, hc', trivial⟩
    | ok p =>
      obtain ⟨v, st'⟩ := p
      dsimp only [osdStep] at hinv' hc' ⊢
      rw [hres] at hinv' hc' ⊢
      dsimp only at hinv' hc' ⊢
      obtain ⟨hc, hs, hcur, hcase⟩ := osdNextCore_ok hstep hsize hres
      have hmode' : st'.config.incrMode ≠ "fixed" := by rw [hc] ; exact hmode
      rcases hcase with ⟨he, hl, hn, hv, hlt⟩ | ⟨se, hns, hv, he, hl, hn⟩ |
        ⟨hns, hv, hlt, hl, hn, hfree⟩
      · have hgap : st.config.step ≤ st.segmentEnd - st.currentNumber :=
          Int.le_of_dvd (by omega) hdvd
        refine ⟨⟨hinv', hmode', ?_, ?_⟩, hc', ?_⟩
        · rw [he, hcur, hc]
          have : st.segmentEnd - (v + st.config.step)
              = st.segmentEnd - st.currentNumber - st.config.step := by omega
          rw [this]
          exact dvd_sub hdvd dvd_rfl
        · intro se hse
          rw [hn] at hse
          rw [hc]
          exact hnsDvd se hse
        · exact ⟨eCov, by rw [hl] ; exact heCovMem, by omega⟩
      · obtain ⟨hlt2, x, hx, hxe⟩ := hnsInv se hns
        have hsegDvd := hnsDvd se hns
        have hgap : st.config.step ≤ se.2 - se.1 :=
          Int.le_of_dvd (by omega) hsegDvd
        refine ⟨⟨hinv', hmode', ?_, ?_⟩, hc', ?_⟩
        · rw [he, hcur, hc]
          have : se.2 - (v + st.config.step)
              = se.2 - se.1 - st.config.step := by omega
          rw [this]
          exact dvd_sub hsegDvd dvd_rfl
        · intro se2 hse2
          rw [hn] at hse2
          exact absurd hse2 (by simp)
        · exact ⟨x, by rw [hl] ; exact hx, by omega⟩
      · have hfull := hfree hmode
        have hgap : st.config.step ≤ st.segmentSize * st.config.step := by
          nlinarith
        refine ⟨⟨hinv', hmode', ?_, ?_⟩, hc', ?_⟩
        · rw [hfull, hcur, hc]
          have : v + st.segmentSize * st.config.step - (v + st.config.step)
              = st.segmentSize * st.config.step - st.config.step := by omega
          rw [this]
          exact dvd_sub (dvd_mul_left _ _) dvd_rfl
        · intro se2 hse2
          rw [hn] at hse2
          exact absurd hse2 (by simp)
        · exact ⟨st'.segmentEnd, by rw [hl] ; exact List.mem_cons_self _ _,
            by omega⟩
  | preload persistOk =>
    dsimp only [osdStep] at hinv' hc' ⊢
    by_cases hp : st.preloadPending
    · rw [if_pos hp] at hinv' hc' ⊢
      obtain ⟨hc, hs, hcur, he, hcase⟩ := osdPreload_fields persistOk st
      refine ⟨⟨hinv', by rw [hc] ; exact hmode, ?_, ?_⟩, hc', trivial⟩
      · rw [he, hcur, hc]
        exact hdvd
      · intro se hse
        rcases hcase with ⟨hn, _⟩ | ⟨hn, _⟩
        · rw [hn] at hse
          rw [hc]
          exact hnsDvd se hse
        · rw [hn] at hse
          injection hse with hse
          subst hse
          rw [hc]
          dsimp only
          have : st.segmentEnd + st.segmentSize * st.config.step - st.segmentEnd
              = st.segmentSize * st.config.step := by omega
          rw [this]
          exact dvd_mul_left _ _
    · rw [if_neg hp] at hinv' hc' ⊢
      exact ⟨⟨hinv', hmode, hdvd, hnsDvd⟩, hc', trivial⟩
  | checkpoint persistOk =>
    dsimp only [osdStep] at hinv' hc' ⊢
    obtain ⟨hc, hs, hcur, he, hn, _⟩ := osdCheckpoint_fields persistOk st
    refine ⟨⟨hinv', by rw [hc] ; exact hmode, ?_, ?_⟩, hc', trivial⟩
    · rw [he, hcur, hc]
      exact hdvd
    · intro se hse
      rw [hn] at hse
      rw [hc]
      exact hnsDvd se hse

/-- Over any schedule, a dispenser satisfying the safety invariant never
issues a value that is not strictly below a committed position. -/
lemma osdCommitAhead_of_inv (ops : List SegOp) :
    ∀ st : SegState, SegInv st → osdCommitAhead 1 ops st := by
  induction ops with
  | nil => intro st _ ; trivial
  | cons op ops ih =>
    intro st h
    obtain ⟨hinv', _, hcc⟩ := SegInv_osdStep op st h
    exact ⟨hcc, ih _ hinv'⟩

/-- Over any schedule, a sequence-mode dispenser satisfying the
strengthened invariant keeps every issued value a full step below a
committed position. -/
lemma osdCommitAhead_seq_of_inv (ops : List SegOp) :
    ∀ (st : SegState) (k : Int), SegInvSeq st → st.config.step = k →
      osdCommitAhead k ops st := by
  induction ops with
  | nil => intro st k _ _ ; trivial
  | cons op ops ih =>
    intro st k h hk
    obtain ⟨hinv', hc', hcc⟩ := SegInvSeq_osdStep op st h
    subst hk
    exact ⟨hcc, ih _ _ hinv' (by rw [hc'])⟩

/-- A numeric-incremental configuration that validates has a nonnegative
step and starting value. -/
lemma validateConfig_incremental {cfg : Config} (ht : cfg.typ = 2)
    (h : validateConfig cfg = none) : 0 ≤ cfg.step ∧ 0 ≤ cfg.starting := by
  unfold validateConfig at h
  rw [if_neg (by omega), if_neg (by omega), if_pos ht] at h
  split_ifs at h
  constructor <;> omega

/-- A freshly constructed optimized segment dispenser establishes the
safety invariant; in sequence mode it establishes the strengthened one.
The first segment end is already committed by the constructor. -/
lemma NewOptimizedSegmentDispenser_inv {cfg : Config} {S thN thD : Int}
    {ok : Bool} {st : SegState} (htyp : cfg.typ = 2)
    (h : NewOptimizedSegmentDispenser cfg S thN thD ok = .ok st) :
    SegInv st ∧ (cfg.incrMode ≠ "fixed" → SegInvSeq st) := by
  unfold NewOptimizedSegmentDispenser at h
  cases hval : validateConfig cfg with
  | some e =>
    rw [hval] at h
    exact absurd h (by simp)
  | none =>
    rw [hval] at h
    dsimp only at h
    obtain ⟨hstep0, _⟩ := validateConfig_incremental htyp hval
    set cfg₁ := if cfg.step = 0 then { cfg with step := 1 } else cfg with hcfg₁
    have hstep1 : 1 ≤ cfg₁.step := by
      rw [hcfg₁]
      split
      · exact le_refl 1
      · omega
    have hmode1 : cfg₁.incrMode = cfg.incrMode := by
      rw [hcfg₁]
      split <;> rfl
    set size := if S ≤ 0 then 100 else S with hsizeDef
    have hsize1 : 1 ≤ size := by
      rw [hsizeDef]
      split <;> omega
    set st₀ : SegState :=
      { config := cfg₁, segmentSize := size,
        thresholdNum := (if thD ≤ 0 ∨ thN ≤ 0 ∨ thD ≤ thN then ((2 : Int), (10 : Int)) else (thN, thD)).1,
        thresholdDen := (if thD ≤ 0 ∨ thN ≤ 0 ∨ thD ≤ thN then ((2 : Int), (10 : Int)) else (thN, thD)).2 }
      with hst₀
    obtain ⟨hc, hs, _, _, hcur, hnext, _, hlog, hlt, hseq⟩ :=
      osdAllocateSegment_ok hstep1 hsize1 h
    have hinv : SegInv st := by
      refine ⟨by rw [hc] ; exact hstep1, by rw [hs] ; exact hsize1,
        ⟨st.segmentEnd, by rw [hlog] ; exact List.mem_cons_self _ _,
          le_refl _⟩, ?_⟩
      intro se hse
      rw [hnext] at hse
      exact absurd hse (by simp)
    refine ⟨hinv, fun hm => ⟨hinv, ?_, ?_, ?_⟩⟩
    · rw [hc]
      dsimp only
      rw [hmode1]
      exact hm
    · rw [hcur]
      have := hseq (by dsimp only ; rw [hmode1] ; exact hm)
      rw [this, hc]
      dsimp only
      have heq : cfg₁.starting + size * cfg₁.step - cfg₁.starting
          = size * cfg₁.step := by omega
      rw [heq]
      exact dvd_mul_left _ _
    · intro se hse
      rw [hnext] at hse
      exact absurd hse (by simp)

/-- Field bookkeeping of the pre-base issue tail: everything except
`currentNumber` and `preloadPending` is preserved, and the issued value
is the pre-state `currentNumber`. -/
lemma sdIssue_fields (st₁ : SDState) :
    (sdIssue st₁).1 = st₁.currentNumber ∧
    (sdIssue st₁).2.config = st₁.config ∧
    (sdIssue st₁).2.segmentSize = st₁.segmentSize ∧
    (sdIssue st₁).2.segmentEnd = st₁.segmentEnd ∧
    (sdIssue st₁).2.nextSegment = st₁.nextSegment ∧
    (sdIssue st₁).2.persistLog = st₁.persistLog ∧
    (sdIssue st₁).2.currentNumber = st₁.currentNumber + st₁.config.step := by
  unfold sdIssue
  dsimp only
  split <;> exact ⟨rfl, rfl, rfl, rfl, rfl, rfl, rfl⟩

/-- What a successful synchronous allocation of segment.go does to the
state.  The boundary clamp is keyed on the type constant 2, so the
unclamped segment-end formula is available whenever the type is not 2. -/
lemma sdAllocateSegment_ok {ok : Bool} {start : Int} {st st' : SDState}
    (hstep : 1 ≤ st.config.step) (hsize : 1 ≤ st.segmentSize)
    (h : sdAllocateSegment ok start st = .ok st') :
    st'.config = st.config ∧ st'.segmentSize = st.segmentSize ∧
    st'.currentNumber = start ∧ st'.nextSegment = st.nextSegment ∧
    st'.persistLog = st'.segmentEnd :: st.persistLog ∧
    start < st'.segmentEnd ∧
    (st.config.typ ≠ 2 →
      st'.segmentEnd = start + st.segmentSize * st.config.step) := by
  have hunit : (1 : Int) ≤ st.segmentSize * st.config.step := by nlinarith
  unfold sdAllocateSegment at h
  by_cases h1 : st.config.typ = 2 ∧ pow10 st.config.length - 1 ≤ start
  · rw [if_pos h1] at h
    exact absurd h (by simp)
  · rw [if_neg h1] at h
    by_cases hok : ok
    · rw [if_pos hok] at h
      injection h with h
      subst h
      refine ⟨rfl, rfl, rfl, rfl, rfl, ?_, ?_⟩
      · by_cases h2 : st.config.typ = 2 ∧
            pow10 st.config.length - 1 < start + st.segmentSize * st.config.step
        · simp only [h2, if_pos]
          have : ¬ pow10 st.config.length - 1 ≤ start := fun hc => h1 ⟨h2.1, hc⟩
          omega
        · simp only [if_neg h2]
          omega
      · intro htyp
        have h2 : ¬ (st.config.typ = 2 ∧
            pow10 st.config.length - 1 < start + st.segmentSize * st.config.step) :=
          fun hc => htyp hc.1
        simp only [if_neg h2]
    · rw [if_neg hok] at h
      exact absurd h (by simp)

/-- A successful allocation of segment.go never touches the
configuration (needed with no bounds on step or size). -/
lemma sdAllocateSegment_config {ok : Bool} {start : Int} {st st' : SDState}
    (h : sdAllocateSegment ok start st = .ok st') : st'.config = st.config := by
  unfold sdAllocateSegment at h
  by_cases h1 : st.config.typ = 2 ∧ pow10 st.config.length - 1 ≤ start
  · rw [if_pos h1] at h
    exact absurd h (by simp)
  · rw [if_neg h1] at h
    by_cases hok : ok
    · rw [if_pos hok] at h
      injection h with h
      subst h
      rfl
    · rw [if_neg hok] at h
      exact absurd h (by simp)

/-- What a successful core `Next` of segment.go does: the three ways a
value can be issued, with the state facts each way guarantees. -/
lemma sdNextCore_ok {ok : Bool} {st : SDState} {v : Int} {st' : SDState}
    (hstep : 1 ≤ st.config.step) (hsize : 1 ≤ st.segmentSize)
    (h : sdNextCore ok st = .ok (v, st')) :
    st'.config = st.config ∧ st'.segmentSize = st.segmentSize ∧
    st'.currentNumber = v + st.config.step ∧
    ((st'.segmentEnd = st.segmentEnd ∧ st'.persistLog = st.persistLog ∧
        st'.nextSegment = st.nextSegment ∧ v = st.currentNumber ∧
        st.currentNumber < st.segmentEnd) ∨
      (∃ se : Int × Int, st.nextSegment = some se ∧ v = se.1 ∧
        st'.segmentEnd = se.2 ∧ st'.persistLog = st.persistLog ∧
        st'.nextSegment = none) ∨
      (st.nextSegment = none ∧ v = st.segmentEnd ∧ v < st'.segmentEnd ∧
        st'.persistLog = st'.segmentEnd :: st.persistLog ∧
        st'.nextSegment = none ∧
        (st.config.typ ≠ 2 →
          st'.segmentEnd = v + st.segmentSize * st.config.step))) := by
  unfold sdNextCore at h
  by_cases hroll : st.segmentEnd ≤ st.currentNumber
  · rw [if_pos hroll] at h
    simp only at h
    cases hns : st.nextSegment with
    | some se =>
      rw [hns] at h
      simp only [Except.ok.injEq] at h
      set stSwitch : SDState :=
        { st with currentNumber := se.1, segmentEnd := se.2,
                  nextSegment := none }
        with hdef
      obtain ⟨h1, h2, h3, h4, h5, h6, h7⟩ := sdIssue_fields stSwitch
      have hfst := congrArg Prod.fst h
      rw [h1] at hfst
      have hv : v = se.1 := hfst.symm
      have hst : st' = (sdIssue stSwitch).2 := (congrArg Prod.snd h).symm
      refine ⟨by rw [hst, h2], by rw [hst, h3], by rw [hst, h7, hv], ?_⟩
      exact .inr (.inl ⟨se, rfl, hv, by rw [hst, h4], by rw [hst, h6],
        by rw [hst, h5]⟩)
    | none =>
      rw [hns] at h
      cases halloc : sdAllocateSegment ok st.segmentEnd st with
      | error e =>
        rw [halloc] at h
        exact absurd h (by simp)
      | ok st₁ =>
        rw [halloc] at h
        simp only [Except.ok.injEq] at h
        obtain ⟨h1, h2, h3, h4, h5, h6, h7⟩ := sdIssue_fields st₁
        obtain ⟨hc, hs, hcur, hnext, hlog, hlt, hseq⟩ :=
          sdAllocateSegment_ok hstep hsize halloc
        have hfst := congrArg Prod.fst h
        rw [h1, hcur] at hfst
        have hv : v = st.segmentEnd := hfst.symm
        have hst : st' = (sdIssue st₁).2 := (congrArg Prod.snd h).symm
        refine ⟨by rw [hst, h2, hc], by rw [hst, h3, hs],
          by rw [hst, h7, hcur, hc, hv], ?_⟩
        refine .inr (.inr ⟨rfl, hv, ?_, ?_, ?_, ?_⟩)
        · rw [hst, h4]
          omega
        · rw [hst, h6, h4]
          exact hlog
        · rw [hst, h5, hnext, hns]
        · intro htyp
          rw [hst, h4, hseq htyp, hv]
  · rw [if_neg hroll] at h
    simp only [Except.ok.injEq] at h
    obtain ⟨h1, h2, h3, h4, h5, h6, h7⟩ := sdIssue_fields st
    have hfst := congrArg Prod.fst h
    rw [h1] at hfst
    have hv : v = st.currentNumber := hfst.symm
    have hst : st' = (sdIssue st).2 := (congrArg Prod.snd h).symm
    refine ⟨by rw [hst, h2], by rw [hst, h3], by rw [hst, h7, hv], ?_⟩
    exact .inl ⟨by rw [hst, h4], by rw [hst, h6], by rw [hst, h5], hv,
      by omega⟩

/-- Core `Next` of segment.go never touches the configuration,
unconditionally. -/
lemma sdNextCore_config {ok : Bool} {st : SDState} {v : Int} {st' : SDState}
    (h : sdNextCore ok st = .ok (v, st')) : st'.config = st.config := by
  unfold sdNextCore at h
  by_cases hroll : st.segmentEnd ≤ st.currentNumber
  · rw [if_pos hroll] at h
    simp only at h
    cases hns : st.nextSegment with
    | some se =>
      rw [hns] at h
      simp only [Except.ok.injEq] at h
      set stSwitch : SDState :=
        { st with currentNumber := se.1, segmentEnd := se.2,
                  nextSegment := none }
        with hdef
      have hst : st' = (sdIssue stSwitch).2 := (congrArg Prod.snd h).symm
      rw [hst]
      exact ((sdIssue_fields stSwitch).2.1).trans rfl
    | none =>
      rw [hns] at h
      cases halloc : sdAllocateSegment ok st.segmentEnd st with
      | error e =>
        rw [halloc] at h
        exact absurd h (by simp)
      | ok st₁ =>
        rw [halloc] at h
        simp only [Except.ok.injEq] at h
        have hst : st' = (sdIssue st₁).2 := (congrArg Prod.snd h).symm
        rw [hst]
        exact ((sdIssue_fields st₁).2.1).trans (sdAllocateSegment_config halloc)
  · rw [if_neg hroll] at h
    simp only [Except.ok.injEq] at h
    have hst : st' = (sdIssue st).2 := (congrArg Prod.snd h).symm
    rw [hst]
    exact (sdIssue_fields st).2.1

/-- One serialized event of the pre-base dispenser at the numeric level:
the same state transition as `sdStep`, but tracking the number handed out
by the core of `Next` instead of the formatted string.  For the
segment-driven kinds (type constants 2 and 3) the two step functions
coincide; that correspondence is part of claim C2's theorem. -/
def sdStepCore (op : SDOp) (st : SDState) : Option Int × SDState :=
  match op with
  | .next allocOk =>
    match sdNextCore allocOk st with
    | .ok (v, st') => (some v, st')
    | .error _ => (none, st)
  | .preload persistOk =>
    (none, if st.preloadPending then sdPreloadNextSegment persistOk st else st)

/-- Commit-ahead property of a pre-base run: every `Next` call that
issues value `v` finds, in the persistence log as it stands when that
call returns, a successfully committed position at least `v + gap`. -/
def sdCommitAhead (gap : Int) : List SDOp → SDState → Prop
  | [], _ => True
  | op :: ops, st =>
    let r := sdStepCore op st
    commitCond gap r.1 r.2.persistLog ∧ sdCommitAhead gap ops r.2

instance (gap : Int) (ops : List SDOp) (st : SDState) :
    Decidable (sdCommitAhead gap ops st) := by
  induction ops generalizing st with
  | nil => exact .isTrue trivial
  | cons op ops ih =>
    simp only [sdCommitAhead]
    have := ih (sdStepCore op st).2
    exact instDecidableAnd

/-- Safety invariant of the pre-base segment dispenser: like `SegInv` of
the optimized one. -/
def SDInv (st : SDState) : Prop :=
  1 ≤ st.config.step ∧ 1 ≤ st.segmentSize ∧
  (∃ e ∈ st.persistLog, st.segmentEnd ≤ e) ∧
  (∀ se : Int × Int, st.nextSegment = some se →
    se.1 < se.2 ∧ ∃ x ∈ st.persistLog, se.2 ≤ x)

/-- Strengthened invariant of the pre-base dispenser when the type is not
the fixed-width constant 2 (segment.go keys its boundary clamp on the
type, not on `incr_mode`): segment boundaries stay aligned to the step. -/
def SDInvSeq (st : SDState) : Prop :=
  SDInv st ∧ st.config.typ ≠ 2 ∧
  st.config.step ∣ st.segmentEnd - st.currentNumber ∧
  (∀ se : Int × Int, st.nextSegment = some se →
    st.config.step ∣ se.2 - se.1)

/-- Field bookkeeping of a pre-base preload-goroutine run, including what
it publishes and commits. -/
lemma sdPreload_fields (ok : Bool) (st : SDState) :
    (sdPreloadNextSegment ok st).config = st.config ∧
    (sdPreloadNextSegment ok st).segmentSize = st.segmentSize ∧
    (sdPreloadNextSegment ok st).currentNumber = st.currentNumber ∧
    (sdPreloadNextSegment ok st).segmentEnd = st.segmentEnd ∧
    ((sdPreloadNextSegment ok st).nextSegment = st.nextSegment ∧
        (sdPreloadNextSegment ok st).persistLog = st.persistLog ∨
      (sdPreloadNextSegment ok st).nextSegment =
          some (st.segmentEnd, st.segmentEnd + st.segmentSize * st.config.step) ∧
        (sdPreloadNextSegment ok st).persistLog =
          (st.segmentEnd + st.segmentSize * st.config.step) :: st.persistLog) := by
  unfold sdPreloadNextSegment
  cases hns : st.nextSegment with
  | some se =>
    dsimp only
    exact ⟨rfl, rfl, rfl, rfl, .inl ⟨rfl, rfl⟩⟩
  | none =>
    dsimp only
    cases ok with
    | true =>
      exact ⟨by simp, by simp, by simp, by simp, .inr ⟨by simp, by simp⟩⟩
    | false =>
      exact ⟨by simp, by simp, by simp, by simp, .inl ⟨by simp, by simp⟩⟩

/-- One serialized pre-base event preserves the safety invariant, does
not change the configuration, and any value it issues is covered by a
committed position strictly above it. -/
lemma SDInv_sdStepCore (op : SDOp) (st : SDState) (h : SDInv st) :
    SDInv (sdStepCore op st).2 ∧ (sdStepCore op st).2.config = st.config ∧
    commitCond 1 (sdStepCore op st).1 (sdStepCore op st).2.persistLog := by
  obtain ⟨hstep, hsize, ⟨eCov, heCovMem, heCov⟩, hnsInv⟩ := h
  cases op with
  | next allocOk =>
    cases hres : sdNextCore allocOk st with
    | error e =>
      dsimp only [sdStepCore]
      rw [hres]
      exact ⟨⟨hstep, hsize, ⟨eCov, heCovMem, heCov⟩, hnsInv⟩, rfl, trivial⟩
    | ok p =>
      obtain ⟨v, st'⟩ := p
      dsimp only [sdStepCore]
      rw [hres]
      obtain ⟨hc, hs, _, hcase⟩ := sdNextCore_ok hstep hsize hres
      rcases hcase with ⟨he, hl, hn, hv, hlt⟩ | ⟨se, hns, hv, he, hl, hn⟩ |
        ⟨hns, hv, hlt, hl, hn, _⟩
      · refine ⟨⟨by rw [hc] ; exact hstep, by rw [hs] ; exact hsize,
          ⟨eCov, by rw [hl] ; exact heCovMem, by rw [he] ; exact heCov⟩, ?_⟩,
          hc, ?_⟩
        · intro se hse
          rw [hn] at hse
          obtain ⟨hlt2, x, hx, hxe⟩ := hnsInv se hse
          exact ⟨hlt2, x, by rw [hl] ; exact hx, hxe⟩
        · exact ⟨eCov, by rw [hl] ; exact heCovMem, by omega⟩
      · obtain ⟨hlt2, x, hx, hxe⟩ := hnsInv se hns
        refine ⟨⟨by rw [hc] ; exact hstep, by rw [hs] ; exact hsize,
          ⟨x, by rw [hl] ; exact hx, by rw [he] ; exact hxe⟩, ?_⟩, hc, ?_⟩
        · intro se2 hse2
          rw [hn] at hse2
          exact absurd hse2 (by simp)
        · exact ⟨x, by rw [hl] ; exact hx, by omega⟩
      · refine ⟨⟨by rw [hc] ; exact hstep, by rw [hs] ; exact hsize,
          ⟨st'.segmentEnd, by rw [hl] ; exact List.mem_cons_self _ _,
            le_refl _⟩, ?_⟩, hc, ?_⟩
        · intro se2 hse2
          rw [hn] at hse2
          exact absurd hse2 (by simp)
        · exact ⟨st'.segmentEnd, by rw [hl] ; exact List.mem_cons_self _ _,
            by omega⟩
  | preload persistOk =>
    dsimp only [sdStepCore]
    by_cases hp : st.preloadPending
    · rw [if_pos hp]
      obtain ⟨hc, hs, _, he, hcase⟩ := sdPreload_fields persistOk st
      rcases hcase with ⟨hn, hl⟩ | ⟨hn, hl⟩
      · refine ⟨⟨by rw [hc] ; exact hstep, by rw [hs] ; exact hsize,
          ⟨eCov, by rw [hl] ; exact heCovMem, by rw [he] ; exact heCov⟩, ?_⟩,
          hc, trivial⟩
        intro se hse
        rw [hn] at hse
        obtain ⟨hlt2, x, hx, hxe⟩ := hnsInv se hse
        exact ⟨hlt2, x, by rw [hl] ; exact hx, hxe⟩
      · have hunit : (1 : Int) ≤ st.segmentSize * st.config.step := by nlinarith
        refine ⟨⟨by rw [hc] ; exact hstep, by rw [hs] ; exact hsize,
          ⟨eCov, by rw [hl] ; exact List.mem_cons_of_mem _ heCovMem,
            by rw [he] ; exact heCov⟩, ?_⟩, hc, trivial⟩
        intro se hse
        rw [hn] at hse
        injection hse with hse
        subst hse
        refine ⟨by dsimp only ; omega,
          st.segmentEnd + st.segmentSize * st.config.step,
          by rw [hl] ; exact List.mem_cons_self _ _, le_refl _⟩
    · rw [if_neg hp]
      exact ⟨⟨hstep, hsize, ⟨eCov, heCovMem, heCov⟩, hnsInv⟩, rfl, trivial⟩

/-- One serialized pre-base event preserves the strengthened invariant,
and any value it issues is covered by a committed position at least one
full step above it. -/
lemma SDInvSeq_sdStepCore (op : SDOp) (st : SDState) (h : SDInvSeq st) :
    SDInvSeq (sdStepCore op st).2 ∧ (sdStepCore op st).2.config = st.config ∧
    commitCond st.config.step (sdStepCore op st).1
      (sdStepCore op st).2.persistLog := by
  obtain ⟨hinv, htypne, hdvd, hnsDvd⟩ := h
  obtain ⟨hinv', hc', _⟩ := SDInv_sdStepCore op st hinv
  obtain ⟨hstep, hsize, ⟨eCov, heCovMem, heCov⟩, hnsInv⟩ := hinv
  cases op with
  | next allocOk =>
    cases hres : sdNextCore allocOk st with
    | error e =>
      dsimp only [sdStepCore] at hinv' hc' ⊢
      rw [hres] at hinv' hc' ⊢
      exact ⟨⟨hinv', htypne, hdvd, hnsDvd⟩, hc', trivial⟩
    | ok p =>
      obtain ⟨v, st'⟩ := p
      dsimp only [sdStepCore] at hinv' hc' ⊢
      rw [hres] at hinv' hc' ⊢
      dsimp only at hinv' hc' ⊢
      obtain ⟨hc, hs, hcur, hcase⟩ := sdNextCore_ok hstep hsize hres
      have htypne' : st'.config.typ ≠ 2 := by rw [hc] ; exact htypne
      rcases hcase with ⟨he, hl, hn, hv, hlt⟩ | ⟨se, hns, hv, he, hl, hn⟩ |
        ⟨hns, hv, hlt, hl, hn, hfree⟩
      · have hgap : st.config.step ≤ st.segmentEnd - st.currentNumber :=
          Int.le_of_dvd (by omega) hdvd
        refine ⟨⟨hinv', htypne', ?_, ?_⟩, hc', ?_⟩
        · rw [he, hcur, hc]
          have : st.segmentEnd - (v + st.config.step)
              = st.segmentEnd - st.currentNumber - st.config.step := by omega
          rw [this]
          exact dvd_sub hdvd dvd_rfl
        · intro se hse
          rw [hn] at hse
          rw [hc]
          exact hnsDvd se hse
        · exact ⟨eCov, by rw [hl] ; exact heCovMem, by omega⟩
      · obtain ⟨hlt2, x, hx, hxe⟩ := hnsInv se hns
        have hsegDvd := hnsDvd se hns
        have hgap : st.config.step ≤ se.2 - se.1 :=
          Int.le_of_dvd (by omega) hsegDvd
        refine ⟨⟨hinv', htypne', ?_, ?_⟩, hc', ?_⟩
        · rw [he, hcur, hc]
          have : se.2 - (v + st.config.step)
              = se.2 - se.1 - st.config.step := by omega
          rw [this]
          exact dvd_sub hsegDvd dvd_rfl
        · intro se2 hse2
          rw [hn] at hse2
          exact absurd hse2 (by simp)
        · exact ⟨x, by rw [hl] ; exact hx, by omega⟩
      · have hfull := hfree htypne
        have hgap : st.config.step ≤ st.segmentSize * st.config.step := by
          nlinarith
        refine ⟨⟨hinv', htypne', ?_, ?_⟩, hc', ?_⟩
        · rw [hfull, hcur, hc]
          have : v + st.segmentSize * st.config.step - (v + st.config.step)
              = st.segmentSize * st.config.step - st.config.step := by omega
          rw [this]
          exact dvd_sub (dvd_mul_left _ _) dvd_rfl
        · intro se2 hse2
          rw [hn] at hse2
          exact absurd hse2 (by simp)
        · exact ⟨st'.segmentEnd, by rw [hl] ; exact List.mem_cons_self _ _,
            by omega⟩
  | preload persistOk =>
    dsimp only [sdStepCore] at hinv' hc' ⊢
    by_cases hp : st.preloadPending
    · rw [if_pos hp] at hinv' hc' ⊢
      obtain ⟨hc, hs, hcur, he, hcase⟩ := sdPreload_fields persistOk st
      refine ⟨⟨hinv', by rw [hc] ; exact htypne, ?_, ?_⟩, hc', trivial⟩
      · rw [he, hcur, hc]
        exact hdvd
      · intro se hse
        rcases hcase with ⟨hn, _⟩ | ⟨hn, _⟩
        · rw [hn] at hse
          rw [hc]
          exact hnsDvd se hse
        · rw [hn] at hse
          injection hse with hse
          subst hse
          rw [hc]
          dsimp only
          have : st.segmentEnd + st.segmentSize * st.config.step - st.segmentEnd
              = st.segmentSize * st.config.step := by omega
          rw [this]
          exact dvd_mul_left _ _
    · rw [if_neg hp] at hinv' hc' ⊢
      exact ⟨⟨hinv', htypne, hdvd, hnsDvd⟩, hc', trivial⟩

/-- Over any schedule, a pre-base dispenser satisfying the safety
invariant never issues a value that is not strictly below a committed
position. -/
lemma sdCommitAhead_of_inv (ops : List SDOp) :
    ∀ st : SDState, SDInv st → sdCommitAhead 1 ops st := by
  induction ops with
  | nil => intro st _ ; trivial
  | cons op ops ih =>
    intro st h
    obtain ⟨hinv', _, hcc⟩ := SDInv_sdStepCore op st h
    exact ⟨hcc, ih _ hinv'⟩

/-- Over any schedule, a pre-base dispenser of a non-clamping type
satisfying the strengthened invariant keeps every issued value a full
step below a committed position. -/
lemma sdCommitAhead_seq_of_inv (ops : List SDOp) :
    ∀ (st : SDState) (k : Int), SDInvSeq st → st.config.step = k →
      sdCommitAhead k ops st := by
  induction ops with
  | nil => intro st k _ _ ; trivial
  | cons op ops ih =>
    intro st k h hk
    obtain ⟨hinv', hc', hcc⟩ := SDInvSeq_sdStepCore op st h
    subst hk
    exact ⟨hcc, ih _ _ hinv' (by rw [hc'])⟩

/-- A freshly constructed pre-base segment dispenser establishes the
safety invariant (its first segment end is committed by the
constructor); for the plain-sequence type constant 3, whose allocations
are never clamped, it establishes the strengthened one. -/
lemma NewSegmentDispenser_inv {cfg : Config} {S thN thD : Int}
    {ok : Bool} {st : SDState}
    (htyp : cfg.typ = 2 ∨ cfg.typ = 3 ∧ 0 ≤ cfg.step)
    (h : NewSegmentDispenser cfg S thN thD ok = .ok st) :
    SDInv st ∧ (cfg.typ = 3 → SDInvSeq st) := by
  unfold NewSegmentDispenser at h
  cases hval : validateConfig cfg with
  | some e =>
    rw [hval] at h
    exact absurd h (by simp)
  | none =>
    rw [hval] at h
    dsimp only at h
    have hstep0 : 0 ≤ cfg.step := by
      rcases htyp with h2 | ⟨_, h3⟩
      · exact (validateConfig_incremental h2 hval).1
      · exact h3
    set cfg₁ := if cfg.step = 0 then { cfg with step := 1 } else cfg with hcfg₁
    have hstep1 : 1 ≤ cfg₁.step := by
      rw [hcfg₁]
      split
      · exact le_refl 1
      · omega
    have htyp1 : cfg₁.typ = cfg.typ := by
      rw [hcfg₁]
      split <;> rfl
    set size := if S ≤ 0 then 100 else S with hsizeDef
    have hsize1 : 1 ≤ size := by
      rw [hsizeDef]
      split <;> omega
    set st₀ : SDState :=
      { config := cfg₁, segmentSize := size,
        thresholdNum := (if thD ≤ 0 ∨ thN ≤ 0 ∨ thD ≤ thN then ((2 : Int), (10 : Int)) else (thN, thD)).1,
        thresholdDen := (if thD ≤ 0 ∨ thN ≤ 0 ∨ thD ≤ thN then ((2 : Int), (10 : Int)) else (thN, thD)).2 }
      with hst₀
    obtain ⟨hc, hs, hcur, hnext, hlog, hlt, hseq⟩ :=
      sdAllocateSegment_ok hstep1 hsize1 h
    have hinv : SDInv st := by
      refine ⟨by rw [hc] ; exact hstep1, by rw [hs] ; exact hsize1,
        ⟨st.segmentEnd, by rw [hlog] ; exact List.mem_cons_self _ _,
          le_refl _⟩, ?_⟩
      intro se hse
      rw [hnext] at hse
      exact absurd hse (by simp)
    refine ⟨hinv, fun h3 => ⟨hinv, ?_, ?_, ?_⟩⟩
    · rw [hc]
      show cfg₁.typ ≠ 2
      rw [htyp1, h3]
      decide
    · rw [hcur]
      have hfull := hseq (show st₀.config.typ ≠ 2 from by
        show cfg₁.typ ≠ 2
        rw [htyp1, h3]
        decide)
      rw [hfull, hc]
      dsimp only
      have heq : cfg₁.starting + size * cfg₁.step - cfg₁.starting
          = size * cfg₁.step := by omega
      rw [heq]
      exact dvd_mul_left _ _
    · intro se hse
      rw [hnext] at hse
      exact absurd hse (by simp)

/-- For the segment-driven kinds (type constants 2 and 3) the
string-level step of the pre-base dispenser and its numeric-core step
perform the same state transition and succeed on the same events. -/
lemma sdStep_eq_sdStepCore (op : SDOp) (st : SDState)
    (h : st.config.typ = 2 ∨ st.config.typ = 3) :
    (sdStep op st).2 = (sdStepCore op st).2 ∧
    ((sdStep op st).1 = none ↔ (sdStepCore op st).1 = none) := by
  cases op with
  | preload persistOk => exact ⟨rfl, by simp [sdStep, sdStepCore]⟩
  | next allocOk =>
    have hne1 : ¬ st.config.typ = 1 := by rcases h with h | h <;> omega
    dsimp only [sdStep, sdStepCore, sdNext]
    rw [if_neg hne1]
    cases hres : sdNextCore allocOk st with
    | error e =>
      dsimp only
      exact ⟨rfl, by simp⟩
    | ok p =>
      obtain ⟨v, st₃⟩ := p
      have hc : st₃.config = st.config := sdNextCore_config hres
      dsimp only
      rcases h with h2 | h3
      · rw [if_pos (by rw [hc] ; exact h2)]
        exact ⟨rfl, by simp⟩
      · rw [if_neg (by rw [hc, h3] ; decide), if_pos (by rw [hc] ; exact h3)]
        exact ⟨rfl, by simp⟩

/-- Claim C2, amended, covering both segment-based code paths.  First
conjunct (optimized dispenser, strategies `pre-checkpoint` and
`pre_close`): for a freshly constructed monotonic dispenser, every value
`v` issued by any schedule of `Next` calls, preload goroutine runs and
checkpoint ticks is, by the time the issuing call returns, strictly
below some position the persistence hook successfully committed
(`e ≥ v + 1`); in sequence mode the stronger bound `e ≥ v + step` of the
original claim holds (in fixed-width mode it fails because the segment
end is clamped to `cap + 1`, see the counterexample).  Second conjunct
(pre-base dispenser of segment.go, strategy `pre-base`): the same
commit-before-issue guarantee `e ≥ v + 1` holds over every schedule of
`Next` calls and preload runs, and the stronger `e ≥ v + step` holds for
the plain-sequence type constant 3, whose allocations segment.go never
clamps (its boundary clamp is keyed on the type constant 2, not on
`incr_mode`, so even a sequence-mode type-2 dispenser may clamp).  Third
conjunct: the numeric trace these pre-base properties are stated over
performs exactly the state transitions of `sdNext` and succeeds on
exactly the same events, for both segment-driven kinds. -/
theorem C2_commit_before_issue :
    (∀ (cfg : Config) (S thN thD : Int) (ok : Bool) (st : SegState)
        (ops : List SegOp), cfg.typ = 2 →
      NewOptimizedSegmentDispenser cfg S thN thD ok = .ok st →
      osdCommitAhead 1 ops st ∧
      (cfg.incrMode ≠ "fixed" → osdCommitAhead st.config.step ops st)) ∧
    (∀ (cfg : Config) (S thN thD : Int) (ok : Bool) (st : SDState)
        (ops : List SDOp),
      cfg.typ = 2 ∨ cfg.typ = 3 ∧ 0 ≤ cfg.step →
      NewSegmentDispenser cfg S thN thD ok = .ok st →
      sdCommitAhead 1 ops st ∧
      (cfg.typ = 3 → sdCommitAhead st.config.step ops st)) ∧
    (∀ (op : SDOp) (st : SDState), st.config.typ = 2 ∨ st.config.typ = 3 →
      (sdStep op st).2 = (sdStepCore op st).2 ∧
      ((sdStep op st).1 = none ↔ (sdStepCore op st).1 = none)) := by
  refine ⟨?_, ?_, sdStep_eq_sdStepCore⟩
  · intro cfg S thN thD ok st ops htyp h
    obtain ⟨hinv, hseq⟩ := NewOptimizedSegmentDispenser_inv htyp h
    exact ⟨osdCommitAhead_of_inv ops st hinv,
      fun hm => osdCommitAhead_seq_of_inv ops st st.config.step (hseq hm) rfl⟩
  · intro cfg S thN thD ok st ops htyp h
    obtain ⟨hinv, hseq⟩ := NewSegmentDispenser_inv htyp h
    exact ⟨sdCommitAhead_of_inv ops st hinv,
      fun h3 => sdCommitAhead_seq_of_inv ops st st.config.step (hseq h3) rfl⟩

/-- Witness for claim C2: a concrete sequence-mode optimized dispenser
and a concrete plain-sequence pre-base dispenser (both step 3, segment
size 5) with a concrete schedule each; all the commit-ahead properties
evaluate to true on them. -/
theorem C2_commit_before_issue_witness :
    (∃ st : SegState,
      NewOptimizedSegmentDispenser
          { typ := 2, incrMode := "sequence", starting := 0, step := 3 }
          5 1 10 true = .ok st ∧
      osdCommitAhead 1
        [.next true, .next true, .preload true, .next true] st ∧
      osdCommitAhead st.config.step
        [.next true, .next true, .preload true, .next true] st) ∧
    (∃ st : SDState,
      NewSegmentDispenser
          { typ := 3, length := 5, starting := 0, step := 3 }
          5 1 10 true = .ok st ∧
      sdCommitAhead 1
        [.next true, .next true, .preload true, .next true] st ∧
      sdCommitAhead st.config.step
        [.next true, .next true, .preload true, .next true] st) := by
  constructor
  · have hnew : ∃ st : SegState,
        NewOptimizedSegmentDispenser
            { typ := 2, incrMode := "sequence", starting := 0, step := 3 }
            5 1 10 true = .ok st := ⟨_, rfl⟩
    obtain ⟨st, hst⟩ := hnew
    have h := C2_commit_before_issue.1
      { typ := 2, incrMode := "sequence", starting := 0, step := 3 }
      5 1 10 true st
      [.next true, .next true, .preload true, .next true] (by decide) hst
    exact ⟨st, hst, h.1, h.2 (by decide)⟩
  · have hnew : ∃ st : SDState,
        NewSegmentDispenser
            { typ := 3, length := 5, starting := 0, step := 3 }
            5 1 10 true = .ok st := ⟨_, rfl⟩
    obtain ⟨st, hst⟩ := hnew
    have h := C2_commit_before_issue.2.1
      { typ := 3, length := 5, starting := 0, step := 3 }
      5 1 10 true st
      [.next true, .next true, .preload true, .next true]
      (.inr ⟨by decide, by decide⟩) hst
    exact ⟨st, hst, h.1, h.2 (by decide)⟩

/-- Configuration for claim C2's counterexample: fixed-width length 1
with step 3 under `pre_close`; the factory allocates a 1000-value segment
whose end is clamped to the cap 9 plus one. -/
def clampCfg : Config :=
  { typ := 2, incrMode := "fixed", length := 1, starting := 0, step := 3,
    autoDisk := "pre_close" }

/-- The dispenser the factory builds for `clampCfg`. -/
def clampStart : SegState :=
  match CreateDispenser clampCfg true with
  | .ok (.osd st) => st
  | _ => { config := {} }

/-- Claim C2, counterexample.  As stated, the claim requires a committed
position `e ≥ v + step` before a call returning `v` completes.  With
fixed-width length 1 and step 3 the only committed position is the
clamped segment end 10; the fourth call returns 9 and no hook call ever
returned success with an argument ≥ 9 + 3 = 12. -/
theorem C2_counterexample :
    CreateDispenser clampCfg true = .ok (.osd clampStart)
    ∧ osdOuts (List.replicate 4 (.next true)) clampStart = [0, 3, 6, 9]
    ∧ clampStart.config.step = 3
    ∧ ¬ osdCommitAhead 3 (List.replicate 4 (.next true)) clampStart := by
  exact ⟨rfl, by decide, by decide, by decide⟩

/-- A run of `get` calls against one numeric-random dispenser: call `i`
uses its own retry-draw oracle; a failed call leaves the dispenser
unchanged (both error paths of `nextNumericRandom` return before
mutating). -/
def randomRun : List (Nat → Int) → Dispenser → Dispenser × List String
  | [], d => (d, [])
  | draw :: rest, d =>
    match nextNumericRandom draw d with
    | .ok (s, d') =>
      let r := randomRun rest d'
      (r.1, s :: r.2)
    | .error _ => randomRun rest d

/-- The retry loop never reports `exhausted` (its failure error is the
100-retries one), and on success it returns a string not in the
de-duplication set, which it records. -/
lemma randomRetry_spec (lo len : Int) (draw : Nat → Int) :
    ∀ (fuel : Nat) (d : Dispenser),
      (randomRetry lo len draw fuel d ≠ .error .numberExhausted) ∧
      (∀ s d', randomRetry lo len draw fuel d = .ok (s, d') →
        s ∉ d.used ∧ d'.used = s :: d.used) := by
  intro fuel
  induction fuel with
  | zero =>
    intro d
    refine ⟨by simp [randomRetry], ?_⟩
    intro s d' h
    exact absurd h (by simp [randomRetry])
  | succ n ih =>
    intro d
    unfold randomRetry
    by_cases hmem : padZero len (draw (100 - n - 1) + lo) ∈ d.used
    · rw [if_pos hmem]
      exact ih d
    · rw [if_neg hmem]
      refine ⟨by simp, ?_⟩
      intro s d' h
      simp only [Except.ok.injEq, Prod.mk.injEq] at h
      obtain ⟨hs, hd⟩ := h
      subst hs
      subst hd
      exact ⟨hmem, rfl⟩

/-- Claim C4, amended: a numeric-random `next()` refuses with `exhausted`
exactly when the issued count strictly exceeds 80 percent of the space
`10^L - 10^(L-1)`.  For length 2 (space 90) the cutoff is therefore 73
issued values, not 72: with 72 issued, `72/90 = 0.8` is not `> 0.8`, the
call still draws (see the counterexample), and only from 73 issued
onwards is every call refused. -/
theorem C4_exhausted_iff_past_threshold (draw : Nat → Int) (d : Dispenser) :
    nextNumericRandom draw d = .error .numberExhausted
    ↔ 8 * (pow10 d.config.length - 1 - pow10 (d.config.length - 1) + 1)
        < 10 * (d.used.length : Int) := by
  unfold nextNumericRandom
  constructor
  · intro h
    by_contra hnot
    rw [if_neg hnot] at h
    exact (randomRetry_spec _ _ draw 100 d).1 h
  · intro h
    rw [if_pos h]

/-- What a successful numeric-random call guarantees. -/
lemma nextNumericRandom_ok {draw : Nat → Int} {d : Dispenser} {s : String}
    {d' : Dispenser} (h : nextNumericRandom draw d = .ok (s, d')) :
    s ∉ d.used ∧ d'.used = s :: d.used := by
  unfold nextNumericRandom at h
  by_cases hth : 8 * (pow10 d.config.length - 1 - pow10 (d.config.length - 1) + 1)
      < 10 * (d.used.length : Int)
  · rw [if_pos hth] at h
    exact absurd h (by simp)
  · rw [if_neg hth] at h
    exact (randomRetry_spec _ _ draw 100 d).2 s d' h

/-- Results of a run of numeric-random calls are pairwise distinct and
avoid everything already recorded as used. -/
lemma randomRun_nodup :
    ∀ (draws : List (Nat → Int)) (d : Dispenser),
      (randomRun draws d).2.Nodup ∧
      ∀ s ∈ (randomRun draws d).2, s ∉ d.used := by
  intro draws
  induction draws with
  | nil =>
    intro d
    exact ⟨List.nodup_nil, by intro s hs ; exact absurd hs (by simp [randomRun])⟩
  | cons draw rest ih =>
    intro d
    unfold randomRun
    cases hres : nextNumericRandom draw d with
    | error e => exact ih d
    | ok p =>
      obtain ⟨s, d'⟩ := p
      obtain ⟨hfresh, hused⟩ := nextNumericRandom_ok hres
      obtain ⟨hnd, havoid⟩ := ih d'
      dsimp only
      constructor
      · refine List.Nodup.cons ?_ hnd
        intro hmem
        exact havoid s hmem (by rw [hused] ; exact List.mem_cons_self _ _)
      · intro x hx
        rcases List.mem_cons.mp hx with hx | hx
        · subst hx
          exact hfresh
        · intro hxin
          exact havoid x hx (by rw [hused] ; exact List.mem_cons_of_mem _ hxin)

/-- Claim C5: for every sequence of `next()` calls on a single
numeric-random dispenser created by `NewDispenser` (whose de-duplication
set starts empty), the successful results are pairwise distinct; every
result is recorded in the issued set and a recorded string is never
returned again. -/
theorem C5_numeric_random_no_duplicates {cfg : Config} {d : Dispenser}
    (_h : NewDispenser cfg = .ok d) (draws : List (Nat → Int)) :
    (randomRun draws d).2.Nodup ∧
    ∀ s ∈ (randomRun draws d).2, s ∉ d.used := by
  exact randomRun_nodup draws d

/-- Witness for claim C5: a concrete 3-call run (with a colliding draw)
produces distinct results. -/
theorem C5_numeric_random_no_duplicates_witness :
    NewDispenser { typ := 1, length := 2 }
      = .ok { config := { typ := 1, length := 2, uniqueCheck := true } } ∧
    (randomRun [fun _ => 5, fun k => 5 + (k : Int), fun _ => 17]
      { config := { typ := 1, length := 2, uniqueCheck := true } }).2.Nodup := by
  refine ⟨rfl, ?_⟩
  exact (C5_numeric_random_no_duplicates
    (show NewDispenser { typ := 1, length := 2 }
        = .ok { config := { typ := 1, length := 2, uniqueCheck := true } }
      from rfl) _).1

/-- Configuration and start state for claim C4's counterexample: a
numeric-random dispenser of length 2 (space 10..99, 90 values). -/
def rand2Start : Dispenser :=
  match NewDispenser { typ := 1, length := 2 } with
  | .ok d => d
  | .error _ => { config := {} }

/-- Seventy-two call oracles: call `i` draws `i`, so the issued strings
are "10" through "81". -/
def seqDraws : List (Nat → Int) :=
  (List.range 72).map fun i _ => (i : Int)

/-- Claim C4, counterexample.  The claim says the 73rd call (after 72
successful issues) fails with `exhausted`; in the code `72/90 = 0.8` is
not strictly greater than `0.8`, so the 73rd call still draws and here
returns "82". -/
theorem C4_counterexample :
    NewDispenser { typ := 1, length := 2 } = .ok rand2Start
    ∧ (randomRun seqDraws rand2Start).2.length = 72
    ∧ (nextNumericRandom (fun _ => 72) (randomRun seqDraws rand2Start).1).map
        Prod.fst = .ok "82" := by
  exact ⟨rfl, by decide, by rfl⟩

/-- Witness accompanying the amended claim C4 at the corrected cutoff:
with 73 values issued on a length-2 dispenser, any call is refused with
`exhausted`, by the amended theorem. -/
theorem C4_exhausted_iff_past_threshold_witness :
    nextNumericRandom (fun _ => 0)
      { config := { typ := 1, length := 2 },
        used := (List.range 73).map fun i => toString (10 + i) }
      = .error .numberExhausted := by
  exact (C4_exhausted_iff_past_threshold (fun _ => 0) _).mpr (by decide)

/-- A successful incremental `Next` keeps the configuration and advances
`current` by the step. -/
lemma nextNumericIncremental_ok {d : Dispenser} {s : String} {d' : Dispenser}
    (h : nextNumericIncremental d = .ok (s, d')) :
    d'.config = d.config ∧ d'.current = d.current + d.config.step := by
  unfold nextNumericIncremental nextIncrFixed nextIncrSequence at h
  by_cases hm : d.config.incrMode = "fixed"
  · rw [if_pos hm] at h
    by_cases hcap : pow10 d.config.length - 1 < d.current
    · rw [if_pos hcap] at h
      exact absurd h (by simp)
    · rw [if_neg hcap] at h
      simp only [Except.ok.injEq, Prod.mk.injEq] at h
      rw [← h.2]
      exact ⟨rfl, rfl⟩
  · rw [if_neg hm] at h
    simp only [Except.ok.injEq, Prod.mk.injEq] at h
    rw [← h.2]
    exact ⟨rfl, rfl⟩

/-- Claim C6, amended.  Under `elegant_close`, each successful monotonic
`next()` is indeed followed by an immediate save of the new `current`
(the position passed to `storage.Save` is the pre-call `current` plus the
step) — but a save error is ignored (`handleGet` drops it with a comment
and falls through), so the reply still carries the identifier no matter
whether the save succeeded: the request does not fail with
persistence-failed. -/
theorem C6_elegant_close_immediate_save (d : Dispenser) (draw : Nat → Int)
    (allocOk saveOk : Bool) (num : String) (nd' : ND)
    (hauto : d.config.autoDisk = StrategyElegantClose)
    (htyp : d.config.typ = 2)
    (hnext : ND.NextStr draw allocOk (.basic d) = .ok (num, nd')) :
    handleGet draw allocOk saveOk (.basic d)
      = (.bulk num, nd', [d.current + d.config.step]) := by
  have hne : ¬ d.config.typ = 1 := by omega
  dsimp only [ND.NextStr] at hnext
  rw [if_neg hne, if_pos htyp] at hnext
  cases hres : nextNumericIncremental d with
  | error e =>
    rw [hres] at hnext
    exact absurd hnext (by simp [Except.map])
  | ok p =>
    obtain ⟨s, d₁⟩ := p
    rw [hres] at hnext
    simp only [Except.map, Except.ok.injEq, Prod.mk.injEq] at hnext
    obtain ⟨hs, hnd⟩ := hnext
    obtain ⟨hcfg, hcur⟩ := nextNumericIncremental_ok hres
    dsimp only [handleGet, ND.NextStr]
    rw [if_neg hne, if_pos htyp, hres]
    have hcond : (ND.basic d₁).GetConfig.autoDisk = StrategyElegantClose
        ∧ (ND.basic d₁).GetConfig.typ = 2 := by
      dsimp only [ND.GetConfig]
      rw [hcfg]
      exact ⟨hauto, htyp⟩
    simp only [Except.map]
    rw [if_pos hcond]
    dsimp only [ND.GetCurrent]
    rw [hcur, hs, hnd]

/-- Configuration of the C6 scenario: a sequence dispenser under
`elegant_close`. -/
def ecCfg : Config :=
  { typ := 2, incrMode := "sequence", starting := 0, step := 1,
    autoDisk := "elegant_close" }

/-- Claim C6, counterexample.  The claim says a failed immediate save
makes the `get` fail with persistence-failed and withholds the
identifier; in the code the save error is ignored and the reply is still
the identifier (here "0" with the save oracle set to failure). -/
theorem C6_counterexample :
    CreateDispenser ecCfg true
      = .ok (.basic { config := ecCfg, current := 0 })
    ∧ (handleGet (fun _ => 0) true false
        (.basic { config := ecCfg, current := 0 })).1 = .bulk "0" := by
  exact ⟨rfl, by rfl⟩

/-- Witness for claim C6: on the concrete `elegant_close` dispenser the
amended theorem yields the reply, the successor state and the single
attempted save position 1, with the save oracle failing. -/
theorem C6_elegant_close_immediate_save_witness :
    handleGet (fun _ => 0) true false (.basic { config := ecCfg, current := 0 })
      = (.bulk "0",
         .basic { config := ecCfg, current := 1, totalGenerated := 1 },
         [1]) := by
  have h := C6_elegant_close_immediate_save
    { config := ecCfg, current := 0 } (fun _ => 0) true false "0"
    (.basic { config := ecCfg, current := 1, totalGenerated := 1 })
    (by rfl) (by rfl) (by rfl)
  exact h

/-- Writing a current value through the interface lands in the internal
counter of every wrapper shape. -/
lemma ND_SetCurrent_counter (c : Int) (nd : ND) :
    (nd.SetCurrent c).currentCounter = c := by
  cases nd <;> rfl

/-- Claim C7: with an incoming configuration identical to the stored one
(zero-valued integers and empty strings counting as absent, so neither
the type nor any core field counts as changed), a repeated `hset` is
idempotent: same-strategy calls return the integer success reply and
leave the registered dispenser untouched, and a durability-only change
succeeds and writes the previous dispenser's `current` into the
replacement's internal counter. -/
theorem C7_hset_idempotent_preserves_current (cfg : Config) (nf : Int)
    (allocOk shutdownOk : Bool) (nd : ND)
    (htyp : cfg.typ = nd.GetConfig.typ)
    (hsame : changedFields cfg nd.GetConfig = []) :
    (cfg.autoDisk = nd.GetConfig.autoDisk →
      ∀ saveOk, handleHSetOnExisting cfg nf allocOk shutdownOk saveOk nd
        = (.integer nf, nd)) ∧
    (∀ d₀ nd₁, cfg.autoDisk ≠ nd.GetConfig.autoDisk →
      CreateDispenser { nd.GetConfig with autoDisk := cfg.autoDisk } allocOk
        = .ok d₀ →
      nd.Shutdown shutdownOk = .ok nd₁ →
      nd.GetConfig.typ = 2 →
      handleHSetOnExisting cfg nf allocOk shutdownOk true nd
        = (.integer nf, d₀.SetCurrent nd.GetCurrent)
      ∧ (d₀.SetCurrent nd.GetCurrent).currentCounter = nd.GetCurrent) := by
  constructor
  · intro heq saveOk
    dsimp only [handleHSetOnExisting]
    rw [if_neg (by omega), if_neg (by rw [hsame] ; exact fun hc => hc rfl),
      if_neg (fun hc => hc heq)]
  · intro d₀ nd₁ hdiff hcreate hshut htyp2
    dsimp only [handleHSetOnExisting]
    rw [if_neg (by omega), if_neg (by rw [hsame] ; exact fun hc => hc rfl),
      if_pos hdiff, hcreate]
    dsimp only
    rw [if_pos htyp2, hshut]
    dsimp only
    rw [if_pos rfl]
    exact ⟨rfl, ND_SetCurrent_counter _ _⟩

/-- Witness for claim C7: a live `elegant_close` sequence dispenser at
current 42; re-issuing its exact configuration is a no-op success, and
changing only `auto_disk` to `memory` swaps in a basic dispenser whose
counter was set to 42. -/
theorem C7_hset_idempotent_preserves_current_witness :
    handleHSetOnExisting ecCfg 3 true true true
        (.basic { config := ecCfg, current := 42 })
      = (.integer 3, .basic { config := ecCfg, current := 42 })
    ∧ handleHSetOnExisting { ecCfg with autoDisk := "memory" } 3 true true true
        (.basic { config := ecCfg, current := 42 })
      = (.integer 3,
         (ND.basic { config := { ecCfg with autoDisk := "memory" } }).SetCurrent 42)
    ∧ ((ND.basic { config := { ecCfg with autoDisk := "memory" } }).SetCurrent
        42).currentCounter = 42 := by
  have h1 := (C7_hset_idempotent_preserves_current ecCfg 3 true true
    (.basic { config := ecCfg, current := 42 }) (by decide) (by decide)).1
    (by decide) true
  have h2 := (C7_hset_idempotent_preserves_current
    { ecCfg with autoDisk := "memory" } 3 true true
    (.basic { config := ecCfg, current := 42 }) (by decide) (by decide)).2
    (.basic { config := { ecCfg with autoDisk := "memory" } })
    (.basic { config := ecCfg, current := 42 })
    (by decide) (by rfl) (by rfl) (by decide)
  exact ⟨h1, h2.1, h2.2⟩

/-- The reconfiguration check, phrased from the specification's words: a
field is rejected when it is present in the incoming configuration (a
zero integer or empty string counts as absent) and differs from the
stored value. -/
def specChangedField (cfg ecfg : Config) (f : String) : Prop :=
  (cfg.length ≠ 0 ∧ cfg.length ≠ ecfg.length ∧ f = "length") ∨
  (cfg.starting ≠ 0 ∧ cfg.starting ≠ ecfg.starting ∧ f = "starting") ∨
  (cfg.step ≠ 0 ∧ cfg.step ≠ ecfg.step ∧ f = "step") ∨
  (cfg.incrMode ≠ "" ∧ cfg.incrMode ≠ ecfg.incrMode ∧ f = "incr_mode") ∨
  (cfg.charset ≠ "" ∧ cfg.charset ≠ ecfg.charset ∧ f = "charset") ∨
  (cfg.uuidFormat ≠ "" ∧ cfg.uuidFormat ≠ ecfg.uuidFormat ∧ f = "uuid_format") ∨
  (cfg.machineID ≠ 0 ∧ cfg.machineID ≠ ecfg.machineID ∧ f = "machine_id") ∨
  (cfg.datacenterID ≠ 0 ∧ cfg.datacenterID ≠ ecfg.datacenterID ∧
    f = "datacenter_id")

/-- Membership of an if-guarded singleton. -/
lemma mem_ite_singleton {c : Prop} [Decidable c] {x f : String} :
    (f ∈ if c then [x] else []) ↔ c ∧ f = x := by
  split <;> simp_all

/-- Claim C8: for an existing dispenser, `hset` rejects any change to a
non-durability field and leaves the registered dispenser untouched.  A
type change is rejected with the dedicated error naming the type (old and
new values); any other core-field change is rejected with the error that
lists exactly the changed fields, and that list agrees with the
specification's notion of a changed field (zero-valued integers and empty
strings count as absent). -/
theorem C8_config_immutable (cfg : Config) (nf : Int)
    (allocOk shutdownOk saveOk : Bool) (nd : ND) :
    (cfg.typ ≠ nd.GetConfig.typ →
      handleHSetOnExisting cfg nf allocOk shutdownOk saveOk nd
        = (.errCannotChangeType nd.GetConfig.typ cfg.typ, nd)) ∧
    (cfg.typ = nd.GetConfig.typ → changedFields cfg nd.GetConfig ≠ [] →
      handleHSetOnExisting cfg nf allocOk shutdownOk saveOk nd
        = (.errCoreImmutable (changedFields cfg nd.GetConfig), nd)) ∧
    (∀ f, f ∈ changedFields cfg nd.GetConfig
      ↔ specChangedField cfg nd.GetConfig f) := by
  refine ⟨?_, ?_, ?_⟩
  · intro hne
    dsimp only [handleHSetOnExisting]
    rw [if_pos hne]
  · intro heq hch
    dsimp only [handleHSetOnExisting]
    rw [if_neg (fun hc => hc heq), if_pos hch]
  · intro f
    unfold changedFields specChangedField
    simp only [List.mem_append, mem_ite_singleton, and_assoc, or_assoc]

/-- Repeated `get` against one dispenser (successful replies advance the
state; the reply values are checked separately in the witnesses). -/
def getN : Nat → ND → ND
  | 0, nd => nd
  | n + 1, nd => getN n (handleGet (fun _ => 0) true true nd).2.1

/-- Configuration of end-to-end scenario 7 of the specification: sequence
dispenser `g`, starting 100, in-memory durability. -/
def gCfg : Config :=
  { typ := 2, incrMode := "sequence", starting := 100, step := 1,
    autoDisk := "memory" }

/-- Witness for claim C8, the specification's scenario 7: after five
issues from `g` (so `current` is 105), the reconfiguration
`type 1 length 7` is rejected naming the type (existing 2, new 1) with
the dispenser untouched, and the next `get` returns "105". -/
theorem C8_config_immutable_witness :
    CreateDispenser gCfg true = .ok (.basic { config := gCfg, current := 100 })
    ∧ handleHSetOnExisting { typ := 1, length := 7 } 2 true true true
        (getN 5 (.basic { config := gCfg, current := 100 }))
      = (.errCannotChangeType 2 1,
         getN 5 (.basic { config := gCfg, current := 100 }))
    ∧ (handleGet (fun _ => 0) true true
        (getN 5 (.basic { config := gCfg, current := 100 }))).1 = .bulk "105" := by
  refine ⟨rfl, ?_, by rfl⟩
  exact (C8_config_immutable { typ := 1, length := 7 } 2 true true true
    (getN 5 (.basic { config := gCfg, current := 100 }))).1 (by decide)

/-- The machine-id field of a composed snowflake identifier: bits 12-16
carry the stored machine id modulo 32. -/
lemma snowflakeCompose_machine_field (delta dc m seq : Int)
    (_hd : 0 ≤ delta) (hs : 0 ≤ seq) (hs2 : seq < 4096) :
    snowflakeCompose delta dc m seq / 2 ^ 12 % 32 = m % 32 := by
  unfold snowflakeCompose
  have h1 : (0 : Int) ≤ dc % 32 := Int.emod_nonneg dc (by norm_num)
  have h2 : dc % 32 < 32 := Int.emod_lt_of_pos dc (by norm_num)
  have h3 : (0 : Int) ≤ m % 32 := Int.emod_nonneg m (by norm_num)
  have h4 : m % 32 < 32 := Int.emod_lt_of_pos m (by norm_num)
  have e1 : (2 : Int) ^ 22 = 4194304 := by norm_num
  have e2 : (2 : Int) ^ 17 = 131072 := by norm_num
  have e3 : (2 : Int) ^ 12 = 4096 := by norm_num
  rw [e1, e2, e3]
  omega

/-- Claim C9, amended.  Creating a snowflake dispenser accepts exactly
the machine ids and datacenter ids in 0..31.  The stored configuration
retains the configured values except `machine-id 0`, which the
constructor treats as absent and replaces with the default 1
(datacenter-id 0 is retained); every generated identifier's 5-bit
machine-id field carries the stored (possibly defaulted) machine id, not
the configured 0. -/
theorem C9_snowflake_ids (m dc : Int) :
    (validateConfig { typ := 4, machineID := m, datacenterID := dc } = none
      ↔ 0 ≤ m ∧ m ≤ 31 ∧ 0 ≤ dc ∧ dc ≤ 31) ∧
    (∀ d : Dispenser,
      NewDispenser { typ := 4, machineID := m, datacenterID := dc } = .ok d →
      d.config.machineID = (if m = 0 then 1 else m)
      ∧ d.config.datacenterID = dc
      ∧ ∀ delta seq : Int, 0 ≤ delta → 0 ≤ seq → seq < 4096 →
          snowflakeCompose delta d.config.datacenterID d.config.machineID seq
              / 2 ^ 12 % 32
            = d.config.machineID % 32) := by
  constructor
  · unfold validateConfig
    rw [if_neg (by norm_num), if_neg (by norm_num), if_neg (by norm_num),
      if_neg (by norm_num), if_pos rfl]
    constructor
    · intro h
      split_ifs at h
      simp_all
    · intro h
      rw [if_neg (by dsimp only ; omega), if_neg (by dsimp only ; omega)]
  · intro d h
    unfold NewDispenser at h
    cases hval : validateConfig { typ := 4, machineID := m, datacenterID := dc } with
    | some e =>
      rw [hval] at h
      exact absurd h (by simp)
    | none =>
      rw [hval] at h
      dsimp only at h
      rw [if_neg (by norm_num), if_neg (by norm_num), if_neg (by norm_num),
        if_pos rfl] at h
      simp only [Except.ok.injEq] at h
      subst h
      refine ⟨?_, ?_, ?_⟩
      · dsimp only
        by_cases hm : m = 0
        · rw [if_pos hm, if_pos hm]
        · rw [if_neg hm, if_neg hm]
      · dsimp only
        by_cases hm : m = 0
        · rw [if_pos hm]
        · rw [if_neg hm]
      · intro delta seq hd hs hs2
        exact snowflakeCompose_machine_field _ _ _ _ hd hs hs2

/-- Claim C9, counterexample.  A snowflake dispenser configured with
machine-id 0 does not retain it: the stored configuration reports
machine-id 1. -/
theorem C9_counterexample :
    NewDispenser { typ := 4, machineID := 0, datacenterID := 0 }
      = .ok { config := { typ := 4, machineID := 1, datacenterID := 0 } }
    ∧ ({ config := { typ := 4, machineID := 1, datacenterID := 0 } }
        : Dispenser).config.machineID ≠ 0 := by
  exact ⟨rfl, by decide⟩

/-- Witness for claim C9: machine-id 7, datacenter-id 0 validates, is
retained exactly, and lands in bits 12-16 of a concrete identifier. -/
theorem C9_snowflake_ids_witness :
    (validateConfig { typ := 4, machineID := 7, datacenterID := 0 } = none
      ↔ 0 ≤ (7 : Int) ∧ (7 : Int) ≤ 31 ∧ 0 ≤ (0 : Int) ∧ (0 : Int) ≤ 31)
    ∧ ∀ d : Dispenser,
      NewDispenser { typ := 4, machineID := 7, datacenterID := 0 } = .ok d →
      d.config.machineID = (if (7 : Int) = 0 then 1 else 7)
      ∧ d.config.datacenterID = 0
      ∧ ∀ delta seq : Int, 0 ≤ delta → 0 ≤ seq → seq < 4096 →
          snowflakeCompose delta d.config.datacenterID d.config.machineID seq
              / 2 ^ 12 % 32
            = d.config.machineID % 32 := by
  exact C9_snowflake_ids 7 0

/-- A preload run of the pre-base dispenser touches neither the live
segment nor the configuration. -/
lemma sdPreloadNextSegment_fields (ok : Bool) (st : SDState) :
    (sdPreloadNextSegment ok st).config = st.config ∧
    (sdPreloadNextSegment ok st).segmentSize = st.segmentSize ∧
    (sdPreloadNextSegment ok st).currentNumber = st.currentNumber ∧
    (sdPreloadNextSegment ok st).segmentEnd = st.segmentEnd := by
  unfold sdPreloadNextSegment
  cases hns : st.nextSegment with
  | some se =>
    dsimp only
    exact ⟨rfl, rfl, rfl, rfl⟩
  | none =>
    dsimp only
    cases ok with
    | true => exact ⟨by simp, by simp, by simp, by simp⟩
    | false => exact ⟨by simp, by simp, by simp, by simp⟩

/-- A `Next` strictly inside the live segment of a pre-base incremental
dispenser succeeds and advances only the current number. -/
lemma sdNext_in_segment {st : SDState} (allocOk : Bool)
    (htyp : st.config.typ = 2) (hlt : st.currentNumber < st.segmentEnd) :
    ∃ s st', sdNext allocOk st = .ok (s, st') ∧
      st'.config = st.config ∧ st'.segmentSize = st.segmentSize ∧
      st'.currentNumber = st.currentNumber + st.config.step ∧
      st'.segmentEnd = st.segmentEnd := by
  have hcore : sdNextCore allocOk st = .ok (sdIssue st) := by
    unfold sdNextCore
    rw [if_neg (by omega)]
  obtain ⟨h1, h2, h3, h4, h5, h6, h7⟩ := sdIssue_fields st
  unfold sdNext
  rw [if_neg (by omega), hcore]
  dsimp only
  rw [if_pos (show (sdIssue st).2.config.typ = 2 from by rw [h2] ; exact htyp)]
  exact ⟨_, _, rfl, h2, h3, by rw [h7], h4⟩

/-- Number of `next` events in a schedule. -/
def countNextOps : List SDOp → Nat
  | [] => 0
  | .next _ :: r => countNextOps r + 1
  | .preload _ :: r => countNextOps r

/-- Within the first segment (enough budget for every `next` in the
schedule), a run leaves `segmentEnd` untouched and advances the current
number by exactly one step per issued value. -/
lemma sdRun_within_segment :
    ∀ (ops : List SDOp) (st : SDState),
      st.config.typ = 2 → 1 ≤ st.config.step →
      st.currentNumber + (countNextOps ops : Int) * st.config.step
          ≤ st.segmentEnd →
      (sdRun ops st).segmentEnd = st.segmentEnd ∧
      (sdRun ops st).currentNumber
        = st.currentNumber + (countNextOps ops : Int) * st.config.step := by
  intro ops
  induction ops with
  | nil =>
    intro st _ _ _
    exact ⟨rfl, by simp [sdRun, countNextOps]⟩
  | cons op ops ih =>
    intro st htyp hstep hbudget
    cases op with
    | next allocOk =>
      have hk : (0 : Int) ≤ (countNextOps ops : Int) := by positivity
      have hk0 : (0 : Int) ≤ (countNextOps ops : Int) * st.config.step := by
        positivity
      have hcnt : (countNextOps (SDOp.next allocOk :: ops) : Int)
          = (countNextOps ops : Int) + 1 := by
        simp [countNextOps]
      rw [hcnt] at hbudget
      rw [show ((countNextOps ops : Int) + 1) * st.config.step
          = (countNextOps ops : Int) * st.config.step + st.config.step
          from by ring] at hbudget
      have hlt : st.currentNumber < st.segmentEnd := by omega
      obtain ⟨s, st', hnext, hc, hsz, hcur, hse⟩ :=
        sdNext_in_segment allocOk htyp hlt
      have hstep' : sdStep (SDOp.next allocOk) st = (some s, st') := by
        dsimp only [sdStep]
        rw [hnext]
      have hrun : sdRun (SDOp.next allocOk :: ops) st = sdRun ops st' := by
        dsimp only [sdRun]
        rw [hstep']
      obtain ⟨h1, h2⟩ := ih st' (by rw [hc] ; exact htyp)
        (by rw [hc] ; exact hstep)
        (by rw [hcur, hse, hc] ; omega)
      constructor
      · rw [hrun, h1, hse]
      · rw [hrun, h2, hcur, hc, hcnt]
        ring
    | preload persistOk =>
      have hcnt : (countNextOps (SDOp.preload persistOk :: ops) : Int)
          = (countNextOps ops : Int) := by
        simp [countNextOps]
      rw [hcnt] at hbudget
      set st₂ := if st.preloadPending = true
          then sdPreloadNextSegment persistOk st else st with hst₂
      have hfields : st₂.config = st.config ∧ st₂.segmentSize = st.segmentSize
          ∧ st₂.currentNumber = st.currentNumber
          ∧ st₂.segmentEnd = st.segmentEnd := by
        rw [hst₂]
        split
        · exact sdPreloadNextSegment_fields persistOk st
        · exact ⟨rfl, rfl, rfl, rfl⟩
      have hrun : sdRun (SDOp.preload persistOk :: ops) st = sdRun ops st₂ := by
        dsimp only [sdRun, sdStep]
      obtain ⟨h1, h2⟩ := ih st₂ (by rw [hfields.1] ; exact htyp)
        (by rw [hfields.1] ; exact hstep)
        (by rw [hfields.2.2.1, hfields.2.2.2, hfields.1] ; exact hbudget)
      constructor
      · rw [hrun, h1, hfields.2.2.2]
      · rw [hrun, h2, hfields.2.2.1, hfields.1, hcnt]

/-- What a successful pre-base construction (with fitting segment) yields. -/
lemma NewSegmentDispenser_ok {cfg : Config} {S thN thD : Int} {st : SDState}
    (_htyp : cfg.typ = 2) (hS : 1 ≤ S) (hstep : 1 ≤ cfg.step)
    (hfit : cfg.starting + S * cfg.step ≤ pow10 cfg.length - 1)
    (h : NewSegmentDispenser cfg S thN thD true = .ok st) :
    st.config = cfg ∧ st.segmentSize = S ∧ st.currentNumber = cfg.starting ∧
    st.segmentEnd = cfg.starting + S * cfg.step ∧ st.nextSegment = none := by
  have hss : 1 ≤ S * cfg.step := by nlinarith
  unfold NewSegmentDispenser at h
  cases hval : validateConfig cfg with
  | some e =>
    rw [hval] at h
    exact absurd h (by simp)
  | none =>
    rw [hval] at h
    dsimp only at h
    rw [if_neg (by omega), if_neg (by omega)] at h
    unfold sdAllocateSegment at h
    dsimp only at h
    rw [if_neg (fun hc => absurd hc.2 (by omega)),
      if_pos (show (true : Bool) = true from rfl),
      if_neg (fun hc => absurd hc.2 (by omega))] at h
    simp only [Except.ok.injEq] at h
    subst h
    exact ⟨rfl, rfl, rfl, rfl, rfl⟩

/-- Claim C10: for a pre-base (`SegmentDispenser`) incremental dispenser
whose first segment fits under the fixed-width cap, `GetCurrent` — the
value the `info` handler reports as `current` and the position
`persistAll` writes — returns the committed segment end
`starting + segment_size * step`, not the next value to hand out: after
`k` issues within the first segment it differs from `starting + k*step`
for every `k < segment_size`. -/
theorem C10_getcurrent_reports_segment_end {cfg : Config} {S thN thD : Int}
    {st : SDState} (htyp : cfg.typ = 2) (hS : 1 ≤ S) (hstep : 1 ≤ cfg.step)
    (hfit : cfg.starting + S * cfg.step ≤ pow10 cfg.length - 1)
    (h : NewSegmentDispenser cfg S thN thD true = .ok st)
    (ops : List SDOp) (hops : (countNextOps ops : Int) ≤ S) :
    sdGetCurrent (sdRun ops st) = cfg.starting + S * cfg.step ∧
    ((countNextOps ops : Int) < S →
      sdGetCurrent (sdRun ops st)
        ≠ cfg.starting + (countNextOps ops : Int) * cfg.step) := by
  obtain ⟨hc, hsz, hcur, hse, _⟩ := NewSegmentDispenser_ok htyp hS hstep hfit h
  have hk : (0 : Int) ≤ (countNextOps ops : Int) := by positivity
  have hrun := sdRun_within_segment ops st (by rw [hc] ; exact htyp)
    (by rw [hc] ; exact hstep)
    (by rw [hcur, hse, hc] ; nlinarith)
  unfold sdGetCurrent
  refine ⟨by rw [hrun.1, hse], ?_⟩
  intro hklt heq
  rw [hrun.1, hse] at heq
  have : (S - (countNextOps ops : Int)) * cfg.step = 0 := by linarith
  have hpos : 1 ≤ (S - (countNextOps ops : Int)) * cfg.step := by nlinarith
  omega

/-- Configuration and factory product for claim C10's witness: an
8-digit pre-base dispenser starting at 0 with segment size 1000. -/
def preBaseCfg : Config :=
  { typ := 2, incrMode := "fixed", length := 8, starting := 0, step := 1 }

/-- The state `NewSegmentDispenser` builds for `preBaseCfg`. -/
def preBaseStart : SDState :=
  match NewSegmentDispenser preBaseCfg 1000 1 10 true with
  | .ok st => st
  | .error _ => { config := {} }

/-- Witness for claim C10: after five issues (and a preload run),
`GetCurrent` reports the committed segment end 1000, not the consumed
position 5. -/
theorem C10_getcurrent_reports_segment_end_witness :
    NewSegmentDispenser preBaseCfg 1000 1 10 true = .ok preBaseStart
    ∧ sdGetCurrent (sdRun
        [.next true, .next true, .next true, .next true, .next true,
         .preload true] preBaseStart) = 0 + 1000 * 1
    ∧ sdGetCurrent (sdRun
        [.next true, .next true, .next true, .next true, .next true,
         .preload true] preBaseStart) ≠ 0 + 5 * 1 := by
  have h := C10_getcurrent_reports_segment_end
    (by decide) (by decide) (by decide) (by decide)
    (show NewSegmentDispenser preBaseCfg 1000 1 10 true = .ok preBaseStart
      from rfl)
    [.next true, .next true, .next true, .next true, .next true,
     .preload true] (by decide)
  exact ⟨rfl, h.1, h.2 (by decide)⟩

end NumberDispenser
